import Mathlib

/-!
Verification of the data-analyst-agent core: a shallow embedding of the
retry-governed generate/execute/validate pipeline, its execution sandbox,
the format-fallback policy, the code-generation adapter and the output
validator, translated from `app/agents/pipeline.py`, `app/core/sandbox.py`,
`app/agents/format_extractor.py`, `app/agents/coding_agent.py` and
`app/agents/validator.py`.

External collaborators (the LLM generator calls, the OS process launch, the
wall clock) are modelled as explicit oracle parameters, so every embedded
function is a total, executable Lean definition; control flow, deadline
arithmetic and error handling are translated statement by statement from the
Python source.
-/

/-! ## JSON values

Python JSON values as produced by `json.loads` / consumed by `json.dumps`.
Numbers are modelled as integers; no property verified here depends on
non-integer numeric literals. `bool` is listed as its own constructor: the
source checks `isinstance(value, bool)` before `isinstance(value, (int,
float))`, so Python booleans never take the numeric branch, which the
separate constructors reproduce exactly. -/

inductive JsonVal where
  | null
  | bool (b : Bool)
  | num (n : Int)
  | str (s : String)
  | arr (l : List JsonVal)
  | obj (l : List (String × JsonVal))

/-! ## Format extractor: fallback population
From `app/agents/format_extractor.py`. -/

/-- `create_fallback_format` (format_extractor.py line 116-117): the fixed
sentinel object returned when no format template exists. -/
def create_fallback_format : JsonVal :=
  .obj [("error", .str "timeout"), ("result", .str "default")]

/-- `_default_for` (format_extractor.py lines 120-129): canonical typed
placeholder for a leaf.  The `isinstance` chain checks `str`, then `bool`,
then `int`/`float`, then `None`, with a final catch-all `"default"`. -/
def _default_for : JsonVal → JsonVal
  | .str _ => .str "default"
  | .bool _ => .bool false
  | .num _ => .num 0
  | .null => .str "default"
  | _ => .str "default"

mutual

/-- `fill_template` (format_extractor.py lines 145-159), the inner worker of
`populate_format_with_timeout_message`: dicts keep their keys and recurse,
a non-empty list is replaced by a single recursively defaulted
representative of its head, an empty list stays empty, leaves are replaced
by `_default_for`. -/
def fill_template : JsonVal → JsonVal
  | .obj kvs => .obj (fillPairs kvs)
  | .arr [] => .arr []
  | .arr (x :: _) => .arr [fill_template x]
  | v => _default_for v

/-- The dict comprehension of `fill_template`
(`out[k] = fill_template(v) if isinstance(v, (dict, list)) else _default_for(v)`):
`fillEntry` inlines the container branches of `fill_template`
(see `fillEntry_eq_fill_template`). -/
def fillPairs : List (String × JsonVal) → List (String × JsonVal)
  | [] => []
  | (k, v) :: rest => (k, fillEntry v) :: fillPairs rest

def fillEntry : JsonVal → JsonVal
  | .obj l => .obj (fillPairs l)
  | .arr [] => .arr []
  | .arr (x :: _) => .arr [fill_template x]
  | w => _default_for w

end

/-- `populate_format_with_timeout_message` (format_extractor.py lines
132-161): `None` template yields the fixed sentinel object, otherwise the
template is recursively defaulted by `fill_template`. -/
def populate_format_with_timeout_message : Option JsonVal → JsonVal
  | none => create_fallback_format
  | some t => fill_template t

/-! ## Character and list utilities

The sandbox and the agents manipulate Python `str` and `bytes` values.
Strings are modelled as Lean `String`/`List Char` (Python `str` is a
sequence of Unicode code points, as is `List Char` up to surrogates, which
CPython's UTF-8 codec refuses anyway); `bytes` as `List Nat` with every
element < 256. -/

/-- `pattern.isPrefixOf input`, written out so it reduces in the kernel. -/
def listStartsWith : List Char → List Char → Bool
  | [], _ => true
  | _ :: _, [] => false
  | p :: ps, c :: cs => p == c && listStartsWith ps cs

/-- Python's `in` operator on strings: substring occurrence. -/
def listContainsSub (s pat : List Char) : Bool :=
  match s with
  | [] => pat == []
  | _ :: rest => if listStartsWith pat s then true else listContainsSub rest pat

def strContains (s pat : String) : Bool := listContainsSub s.toList pat.toList

/-- Drop an expected literal from the front of the input, or fail. -/
def dropLit : List Char → List Char → Option (List Char)
  | [], input => some input
  | _ :: _, [] => none
  | p :: ps, c :: cs => if p == c then dropLit ps cs else none

/-- Take characters up to (excluding) the first occurrence of `stop`;
fails if `stop` never occurs. -/
def takeUntilChar (stop : Char) : List Char → Option (List Char × List Char)
  | [] => none
  | c :: rest =>
    if c == stop then some ([], rest)
    else (takeUntilChar stop rest).map (fun p => (c :: p.1, p.2))

/-! ## UTF-8 (`str.encode('utf-8')` / `bytes.decode('utf-8', 'ignore')`)

The exact CPython encoder by code-point ranges, and a decoder that is exact
on valid UTF-8; on malformed input the decoder skips bytes, standing in for
`errors='ignore'` (no verified property depends on the malformed case). -/

def utf8EncodeChar (c : Char) : List Nat :=
  if c.toNat < 0x80 then [c.toNat]
  else if c.toNat < 0x800 then [0xC0 + c.toNat / 64, 0x80 + c.toNat % 64]
  else if c.toNat < 0x10000 then
    [0xE0 + c.toNat / 4096, 0x80 + c.toNat / 64 % 64, 0x80 + c.toNat % 64]
  else
    [0xF0 + c.toNat / 262144, 0x80 + c.toNat / 4096 % 64, 0x80 + c.toNat / 64 % 64,
      0x80 + c.toNat % 64]

def utf8EncodeList : List Char → List Nat
  | [] => []
  | c :: cs => utf8EncodeChar c ++ utf8EncodeList cs

/-- `s.encode('utf-8')`. -/
def utf8EncodeStr (s : String) : List Nat := utf8EncodeList s.toList

def isCont (b : Nat) : Bool := 0x80 ≤ b ∧ b < 0xC0

def utf8DecodeStep : List Nat → Option (Option Char × List Nat)
  | [] => none
  | b :: rest =>
    if b < 0x80 then some (some (Char.ofNat b), rest)
    else if b < 0xC0 then some (none, rest)
    else if b < 0xE0 then
      match rest with
      | b2 :: rest2 =>
        if isCont b2 then some (some (Char.ofNat ((b - 0xC0) * 64 + (b2 - 0x80))), rest2)
        else some (none, rest)
      | [] => some (none, [])
    else if b < 0xF0 then
      match rest with
      | b2 :: b3 :: rest3 =>
        if isCont b2 ∧ isCont b3 then
          some (some (Char.ofNat ((b - 0xE0) * 4096 + (b2 - 0x80) * 64 + (b3 - 0x80))), rest3)
        else some (none, rest)
      | _ => some (none, rest)
    else if b < 0xF8 then
      match rest with
      | b2 :: b3 :: b4 :: rest4 =>
        if isCont b2 ∧ isCont b3 ∧ isCont b4 then
          some (some (Char.ofNat ((b - 0xF0) * 262144 + (b2 - 0x80) * 4096 + (b3 - 0x80) * 64
            + (b4 - 0x80))), rest4)
        else some (none, rest)
      | _ => some (none, rest)
    else some (none, rest)

def utf8DecodeAux : Nat → List Nat → List Char
  | 0, _ => []
  | _ + 1, [] => []
  | fuel + 1, b :: rest =>
    match utf8DecodeStep (b :: rest) with
    | some (some ch, rest') => ch :: utf8DecodeAux fuel rest'
    | some (none, rest') => utf8DecodeAux fuel rest'
    | none => []

/-- `bs.decode('utf-8', errors='ignore')` as a list of code points. -/
def utf8DecodeIgnore (l : List Nat) : List Char := utf8DecodeAux l.length l

/-- `bs.decode('utf-8', errors='ignore')` as a `String`. -/
def utf8DecodeIgnoreStr (l : List Nat) : String := String.mk (utf8DecodeIgnore l)

/-! ## Base64 (`base64.b64encode` / `base64.b64decode`) -/

/-- The standard base64 alphabet, index 0-63 (65 = uppercase A, 97 =
lowercase a, 48 = digit 0, 43 = plus, 47 = slash). -/
def b64Char (i : Nat) : Char :=
  if i < 26 then Char.ofNat (65 + i)
  else if i < 52 then Char.ofNat (97 + (i - 26))
  else if i < 62 then Char.ofNat (48 + (i - 52))
  else if i = 62 then Char.ofNat 43
  else Char.ofNat 47

/-- The padding character (61 = equals sign). -/
def b64Pad : Char := Char.ofNat 61

def b64Index (c : Char) : Option Nat :=
  if 65 ≤ c.toNat ∧ c.toNat ≤ 90 then some (c.toNat - 65)
  else if 97 ≤ c.toNat ∧ c.toNat ≤ 122 then some (c.toNat - 97 + 26)
  else if 48 ≤ c.toNat ∧ c.toNat ≤ 57 then some (c.toNat - 48 + 52)
  else if c.toNat = 43 then some 62
  else if c.toNat = 47 then some 63
  else none

def b64EncodeList : List Nat → List Char
  | [] => []
  | [a] => [b64Char (a / 4), b64Char (a % 4 * 16), b64Pad, b64Pad]
  | [a, b] => [b64Char (a / 4), b64Char (a % 4 * 16 + b / 16), b64Char (b % 16 * 4), b64Pad]
  | a :: b :: c :: rest =>
    b64Char (a / 4) :: b64Char (a % 4 * 16 + b / 16) :: b64Char (b % 16 * 4 + c / 64)
      :: b64Char (c % 64) :: b64EncodeList rest

def b64DecodeList : List Char → Option (List Nat)
  | [] => some []
  | [c1, c2, c3, c4] =>
    if c3 = b64Pad ∧ c4 = b64Pad then
      (b64Index c1).bind fun i1 => (b64Index c2).bind fun i2 =>
        some [i1 * 4 + i2 / 16]
    else if c4 = b64Pad then
      (b64Index c1).bind fun i1 => (b64Index c2).bind fun i2 => (b64Index c3).bind fun i3 =>
        some [i1 * 4 + i2 / 16, i2 % 16 * 16 + i3 / 4]
    else
      (b64Index c1).bind fun i1 => (b64Index c2).bind fun i2 => (b64Index c3).bind fun i3 =>
        (b64Index c4).bind fun i4 =>
          some [i1 * 4 + i2 / 16, i2 % 16 * 16 + i3 / 4, i3 % 4 * 64 + i4]
  | c1 :: c2 :: c3 :: c4 :: rest =>
    (b64Index c1).bind fun i1 => (b64Index c2).bind fun i2 => (b64Index c3).bind fun i3 =>
      (b64Index c4).bind fun i4 => (b64DecodeList rest).bind fun tail =>
        some ((i1 * 4 + i2 / 16) :: (i2 % 16 * 16 + i3 / 4) :: (i3 % 4 * 64 + i4) :: tail)
  | _ => none

/-- `base64.b64encode(bs).decode('ascii')` as used by `_build_script`. -/
def b64EncodeStr (bs : List Nat) : List Char := b64EncodeList bs

/-! ## JSON parsing (`json.loads`)

A recursive-descent parser for the JSON subset relevant to the verified
properties.  Numeric literals are parsed as integers; non-integer literals
are rejected (no verified property evaluates `json.loads` on non-integer
numerics).  Used only through concrete evaluation and through the fact that
it either returns a value or `none` (`json.loads` either returns or raises). -/

def jsonIsWs (c : Char) : Bool := c.toNat = 32 ∨ c.toNat = 9 ∨ c.toNat = 10 ∨ c.toNat = 13

def jsonSkipWs : List Char → List Char
  | [] => []
  | c :: rest => if jsonIsWs c then jsonSkipWs rest else c :: rest

def jsonIsDigit (c : Char) : Bool := 48 ≤ c.toNat ∧ c.toNat ≤ 57

def jsonDigits : List Char → (List Nat × List Char)
  | [] => ([], [])
  | c :: rest =>
    if jsonIsDigit c then
      let p := jsonDigits rest
      ((c.toNat - 48) :: p.1, p.2)
    else ([], c :: rest)

def digitsToNat : List Nat → Nat → Nat
  | [], acc => acc
  | d :: ds, acc => digitsToNat ds (acc * 10 + d)

/-- JSON string body after the opening double quote, up to the closing one. -/
def jsonParseStringBody : Nat → List Char → Option (List Char × List Char)
  | 0, _ => none
  | _ + 1, [] => none
  | fuel + 1, c :: rest =>
    if c.toNat = 34 then some ([], rest)
    else if c.toNat = 92 then
      match rest with
      | [] => none
      | e :: rest2 =>
        let dec : Option (Char × List Char) :=
          if e.toNat = 34 then some (Char.ofNat 34, rest2)
          else if e.toNat = 92 then some (Char.ofNat 92, rest2)
          else if e.toNat = 47 then some (Char.ofNat 47, rest2)
          else if e.toNat = 98 then some (Char.ofNat 8, rest2)
          else if e.toNat = 102 then some (Char.ofNat 12, rest2)
          else if e.toNat = 110 then some (Char.ofNat 10, rest2)
          else if e.toNat = 114 then some (Char.ofNat 13, rest2)
          else if e.toNat = 116 then some (Char.ofNat 9, rest2)
          else none
        match dec with
        | some (ch, rest') =>
          (jsonParseStringBody fuel rest').map (fun p => (ch :: p.1, p.2))
        | none => none
    else (jsonParseStringBody fuel rest).map (fun p => (c :: p.1, p.2))

/-- A number literal must not be followed by a fraction or exponent (those
are non-integer literals, outside the modelled subset). -/
def jsonNumOk : List Char → Bool
  | [] => true
  | c :: _ => ¬ (c.toNat = 46 ∨ c.toNat = 101 ∨ c.toNat = 69)

mutual

def jsonParseVal : Nat → List Char → Option (JsonVal × List Char)
  | 0, _ => none
  | fuel + 1, l =>
    match jsonSkipWs l with
    | [] => none
    | c :: rest =>
      if c.toNat = 34 then
        (jsonParseStringBody (fuel + 1) rest).map (fun p => (JsonVal.str (String.mk p.1), p.2))
      else if c.toNat = 110 then
        (dropLit [Char.ofNat 117, Char.ofNat 108, Char.ofNat 108] rest).map
          (fun r => (JsonVal.null, r))
      else if c.toNat = 116 then
        (dropLit [Char.ofNat 114, Char.ofNat 117, Char.ofNat 101] rest).map
          (fun r => (JsonVal.bool true, r))
      else if c.toNat = 102 then
        (dropLit [Char.ofNat 97, Char.ofNat 108, Char.ofNat 115, Char.ofNat 101] rest).map
          (fun r => (JsonVal.bool false, r))
      else if c.toNat = 123 then jsonParseObjItems fuel (jsonSkipWs rest) true
      else if c.toNat = 91 then jsonParseArrItems fuel (jsonSkipWs rest) true
      else if c.toNat = 45 then
        match jsonDigits rest with
        | ([], _) => none
        | (d :: ds, rest') =>
          if jsonNumOk rest' then
            some (JsonVal.num (-(Int.ofNat (digitsToNat (d :: ds) 0))), rest')
          else none
      else if jsonIsDigit c then
        match jsonDigits (c :: rest) with
        | ([], _) => none
        | (d :: ds, rest') =>
          if jsonNumOk rest' then some (JsonVal.num (Int.ofNat (digitsToNat (d :: ds) 0)), rest')
          else none
      else none

/-- After a `[`: parse items; `first` is true before any item was read. -/
def jsonParseArrItems : Nat → List Char → Bool → Option (JsonVal × List Char)
  | 0, _, _ => none
  | fuel + 1, l, first =>
    match jsonSkipWs l with
    | [] => none
    | c :: rest =>
      if c.toNat = 93 then some (JsonVal.arr [], rest)
      else
        let l' := if first then c :: rest else
          if c.toNat = 44 then rest else []
        match jsonParseVal fuel l' with
        | none => none
        | some (v, rest') =>
          match jsonParseArrItems fuel rest' false with
          | some (JsonVal.arr vs, rest'') => some (JsonVal.arr (v :: vs), rest'')
          | _ => none

/-- After a `{`: parse members; `first` is true before any member was read. -/
def jsonParseObjItems : Nat → List Char → Bool → Option (JsonVal × List Char)
  | 0, _, _ => none
  | fuel + 1, l, first =>
    match jsonSkipWs l with
    | [] => none
    | c :: rest =>
      if c.toNat = 125 then some (JsonVal.obj [], rest)
      else
        let l' := if first then c :: rest else
          if c.toNat = 44 then rest else []
        match jsonSkipWs l' with
        | k :: restk =>
          if k.toNat = 34 then
            match jsonParseStringBody (fuel + 1) restk with
            | none => none
            | some (key, restv) =>
              match jsonSkipWs restv with
              | colon :: restv2 =>
                if colon.toNat = 58 then
                  match jsonParseVal fuel restv2 with
                  | none => none
                  | some (v, rest') =>
                    match jsonParseObjItems fuel rest' false with
                    | some (JsonVal.obj kvs, rest'') =>
                      some (JsonVal.obj ((String.mk key, v) :: kvs), rest'')
                    | _ => none
                else none
              | [] => none
          else none
        | [] => none

end

/-- `json.loads(s)`: parse a full JSON document; trailing content (after
whitespace) makes the parse fail, as in Python. Returns `none` where
`json.loads` raises. -/
def jsonParse (s : String) : Option JsonVal :=
  match jsonParseVal (s.toList.length + 1) s.toList with
  | some (v, rest) => if jsonSkipWs rest = [] then some v else none
  | none => none

/-! ## Python `repr` of `str` and `bytes`

`_build_script` (sandbox.py lines 11-46) interpolates attachment names with
`{k!r}` and attachment bytes with `{v!r}`.  The CPython repr algorithms are
reproduced here: quote selection (single quote unless the value contains a
single quote and no double quote), mandatory escapes for backslash, the
chosen quote, tab, newline and carriage return, hex escapes for other
non-printable characters, and raw output for the rest.  For `str`, which
characters above U+007F count as printable comes from the Unicode database;
that judgement is abstracted as the `printable : Char → Bool` parameter, and
every verified statement holds for every choice of it. -/

def chQuote : Char := Char.ofNat 39

def chDQuote : Char := Char.ofNat 34

def chBackslash : Char := Char.ofNat 92

def chNewline : Char := Char.ofNat 10

/-- Lowercase hexadecimal digit (CPython emits lowercase in `\xhh`). -/
def hexDigitChar (n : Nat) : Char :=
  if n < 10 then Char.ofNat (48 + n) else Char.ofNat (87 + n)

def decHexDigit (c : Char) : Option Nat :=
  if 48 ≤ c.toNat ∧ c.toNat ≤ 57 then some (c.toNat - 48)
  else if 97 ≤ c.toNat ∧ c.toNat ≤ 102 then some (c.toNat - 87)
  else if 65 ≤ c.toNat ∧ c.toNat ≤ 70 then some (c.toNat - 55)
  else none

/-- One byte of a `bytes` repr body under quote `q` (39 or 34). -/
def escByte (q b : Nat) : List Char :=
  if b = 92 then [chBackslash, chBackslash]
  else if b = q then [chBackslash, Char.ofNat q]
  else if b = 9 then [chBackslash, Char.ofNat 116]
  else if b = 10 then [chBackslash, Char.ofNat 110]
  else if b = 13 then [chBackslash, Char.ofNat 114]
  else if b < 32 ∨ 127 ≤ b then
    [chBackslash, Char.ofNat 120, hexDigitChar (b / 16), hexDigitChar (b % 16)]
  else [Char.ofNat b]

def escBytes (q : Nat) : List Nat → List Char
  | [] => []
  | b :: bs => escByte q b ++ escBytes q bs

def reprQuoteBytes (v : List Nat) : Nat :=
  if v.contains 39 ∧ ¬ v.contains 34 then 34 else 39

/-- CPython `repr` of a `bytes` object, as interpolated by `{v!r}`. -/
def pyBytesRepr (v : List Nat) : List Char :=
  Char.ofNat 98 :: Char.ofNat (reprQuoteBytes v)
    :: escBytes (reprQuoteBytes v) v ++ [Char.ofNat (reprQuoteBytes v)]

/-- One character of a `str` repr body under quote `q`. -/
def escStrChar (q : Nat) (printable : Char → Bool) (c : Char) : List Char :=
  if c.toNat = 92 then [chBackslash, chBackslash]
  else if c.toNat = q then [chBackslash, Char.ofNat q]
  else if c.toNat = 9 then [chBackslash, Char.ofNat 116]
  else if c.toNat = 10 then [chBackslash, Char.ofNat 110]
  else if c.toNat = 13 then [chBackslash, Char.ofNat 114]
  else if c.toNat < 32 ∨ c.toNat = 127 then
    [chBackslash, Char.ofNat 120, hexDigitChar (c.toNat / 16), hexDigitChar (c.toNat % 16)]
  else if c.toNat < 127 then [c]
  else if printable c then [c]
  else if c.toNat ≤ 0xFF then
    [chBackslash, Char.ofNat 120, hexDigitChar (c.toNat / 16), hexDigitChar (c.toNat % 16)]
  else if c.toNat ≤ 0xFFFF then
    [chBackslash, Char.ofNat 117, hexDigitChar (c.toNat / 4096 % 16),
      hexDigitChar (c.toNat / 256 % 16), hexDigitChar (c.toNat / 16 % 16),
      hexDigitChar (c.toNat % 16)]
  else
    [chBackslash, Char.ofNat 85, hexDigitChar (c.toNat / 268435456 % 16),
      hexDigitChar (c.toNat / 16777216 % 16), hexDigitChar (c.toNat / 1048576 % 16),
      hexDigitChar (c.toNat / 65536 % 16), hexDigitChar (c.toNat / 4096 % 16),
      hexDigitChar (c.toNat / 256 % 16), hexDigitChar (c.toNat / 16 % 16),
      hexDigitChar (c.toNat % 16)]

def escStr (q : Nat) (printable : Char → Bool) : List Char → List Char
  | [] => []
  | c :: cs => escStrChar q printable c ++ escStr q printable cs

def reprQuoteStr (s : List Char) : Nat :=
  if s.contains chQuote ∧ ¬ s.contains chDQuote then 34 else 39

/-- CPython `repr` of a `str` object, as interpolated by `{k!r}`. -/
def pyStrRepr (printable : Char → Bool) (s : List Char) : List Char :=
  Char.ofNat (reprQuoteStr s) :: escStr (reprQuoteStr s) printable s
    ++ [Char.ofNat (reprQuoteStr s)]

/-! ## Python literal semantics (the child interpreter's view)

Parsers for the string and bytes literals of the generated harness,
following the CPython tokenizer: a literal ends at the first unescaped
occurrence of its quote character, a raw newline or carriage return inside
a (non-triple-quoted) literal is a syntax error, and escape sequences
denote the escaped character/byte.  These are the semantics against which
the round-trip of `_build_script`'s interpolations is judged: a payload
that could terminate its literal early or break the line structure would
make these parsers return a different result. -/

def parseBytesBody (q : Nat) : List Char → Option (List Nat × List Char)
  | [] => none
  | c :: rest =>
    if c.toNat = q then some ([], rest)
    else if c.toNat = 92 then
      match rest with
      | [] => none
      | e :: rest2 =>
        if e.toNat = 92 then (parseBytesBody q rest2).map (fun p => (92 :: p.1, p.2))
        else if e.toNat = 39 then (parseBytesBody q rest2).map (fun p => (39 :: p.1, p.2))
        else if e.toNat = 34 then (parseBytesBody q rest2).map (fun p => (34 :: p.1, p.2))
        else if e.toNat = 116 then (parseBytesBody q rest2).map (fun p => (9 :: p.1, p.2))
        else if e.toNat = 110 then (parseBytesBody q rest2).map (fun p => (10 :: p.1, p.2))
        else if e.toNat = 114 then (parseBytesBody q rest2).map (fun p => (13 :: p.1, p.2))
        else if e.toNat = 120 then
          match rest2 with
          | h1 :: h2 :: rest3 =>
            (decHexDigit h1).bind fun d1 => (decHexDigit h2).bind fun d2 =>
              (parseBytesBody q rest3).map (fun p => ((16 * d1 + d2) :: p.1, p.2))
          | _ => none
        else none
    else if c.toNat = 10 ∨ c.toNat = 13 then none
    else (parseBytesBody q rest).map (fun p => (c.toNat :: p.1, p.2))

def parseStrEsc (e : Char) (rest2 : List Char) : Option (Char × List Char) :=
  if e.toNat = 92 then some (chBackslash, rest2)
  else if e.toNat = 39 then some (chQuote, rest2)
  else if e.toNat = 34 then some (chDQuote, rest2)
  else if e.toNat = 116 then some (Char.ofNat 9, rest2)
  else if e.toNat = 110 then some (Char.ofNat 10, rest2)
  else if e.toNat = 114 then some (Char.ofNat 13, rest2)
  else if e.toNat = 120 then
    match rest2 with
    | h1 :: h2 :: r =>
      (decHexDigit h1).bind fun d1 => (decHexDigit h2).bind fun d2 =>
        some (Char.ofNat (16 * d1 + d2), r)
    | _ => none
  else if e.toNat = 117 then
    match rest2 with
    | h1 :: h2 :: h3 :: h4 :: r =>
      (decHexDigit h1).bind fun d1 => (decHexDigit h2).bind fun d2 =>
        (decHexDigit h3).bind fun d3 => (decHexDigit h4).bind fun d4 =>
          some (Char.ofNat (4096 * d1 + 256 * d2 + 16 * d3 + d4), r)
    | _ => none
  else if e.toNat = 85 then
    match rest2 with
    | h1 :: h2 :: h3 :: h4 :: h5 :: h6 :: h7 :: h8 :: r =>
      (decHexDigit h1).bind fun d1 => (decHexDigit h2).bind fun d2 =>
        (decHexDigit h3).bind fun d3 => (decHexDigit h4).bind fun d4 =>
          (decHexDigit h5).bind fun d5 => (decHexDigit h6).bind fun d6 =>
            (decHexDigit h7).bind fun d7 => (decHexDigit h8).bind fun d8 =>
              some (Char.ofNat (268435456 * d1 + 16777216 * d2 + 1048576 * d3
                + 65536 * d4 + 4096 * d5 + 256 * d6 + 16 * d7 + d8), r)
    | _ => none
  else none

def parseStrBody : Nat → Nat → List Char → Option (List Char × List Char)
  | 0, _, _ => none
  | _ + 1, _, [] => none
  | fuel + 1, q, c :: rest =>
    if c.toNat = q then some ([], rest)
    else if c.toNat = 92 then
      match rest with
      | [] => none
      | e :: rest2 =>
        match parseStrEsc e rest2 with
        | some p => (parseStrBody fuel q p.2).map (fun p2 => (p.1 :: p2.1, p2.2))
        | none => none
    else if c.toNat = 10 ∨ c.toNat = 13 then none
    else (parseStrBody fuel q rest).map (fun p => (c :: p.1, p.2))

def parseStrLit : List Char → Option (List Char × List Char)
  | [] => none
  | c :: rest =>
    if c.toNat = 39 ∨ c.toNat = 34 then parseStrBody (rest.length + 1) c.toNat rest
    else none

def parseBytesLit : List Char → Option (List Nat × List Char)
  | [] => none
  | b :: rest =>
    if b.toNat = 98 then
      match rest with
      | q :: rest2 =>
        if q.toNat = 39 ∨ q.toNat = 34 then parseBytesBody q.toNat rest2 else none
      | [] => none
    else none

/-! ## `_build_script` (sandbox.py lines 11-46)

The harness text, assembled exactly as the Python source does:
`prefix + inject + q_section + sd_section + start + code + "\n"`, where
`inject` joins one `attachments[{k!r}] = {v!r}` line per attachment with
newlines, `q_section` transports `questions_txt` as base64-encoded UTF-8,
and `sd_section` transports `json.dumps(sourced_data)` the same way.  The
`sourced_json` parameter is the `json.dumps` output text (the serializer
itself is outside every verified property; `run_pipeline` always passes
`sourced_data=None`). -/

def harnessHeaderStr : String :=
  "# Auto-generated execution harness\nimport sys, io, json, base64\nfrom typing import Dict\n\nattachments: Dict[str, bytes] = {}\n# Attachments injected below\n"

def attToken : List Char := "attachments[".toList

def mkInjLine (printable : Char → Bool) (k : String) (v : List Nat) : List Char :=
  attToken ++ pyStrRepr printable k.toList ++ "] = ".toList ++ pyBytesRepr v

def joinNl : List (List Char) → List Char
  | [] => []
  | [l] => l
  | l :: ls => l ++ chNewline :: joinNl ls

def qSectionBody (q : Option String) : List Char :=
  match q with
  | none => "questions_txt = ''\n".toList
  | some s =>
    "# Inject questions_txt\n_qt_b64 = '".toList ++ b64EncodeStr (utf8EncodeStr s)
      ++ "'\nquestions_txt = base64.b64decode(_qt_b64).decode('utf-8', 'ignore')\n".toList

def sdSectionBody (sd : Option String) : List Char :=
  match sd with
  | none => "sourced_data = None\n".toList
  | some s =>
    "# Inject sourced_data (JSON-deserialized)\n_sd_b64 = '".toList
      ++ b64EncodeStr (utf8EncodeStr s)
      ++ "'\nsourced_data = json.loads(base64.b64decode(_sd_b64).decode('utf-8', 'ignore'))\n".toList

def startMarker : List Char := "\n\n# User code starts\n".toList

def _build_script (printable : Char → Bool) (code : String)
    (attachments : List (String × List Nat)) (questions_txt : Option String)
    (sourced_json : Option String) : List Char :=
  harnessHeaderStr.toList
    ++ joinNl (attachments.map (fun p => mkInjLine printable p.1 p.2))
    ++ chNewline :: qSectionBody questions_txt
    ++ chNewline :: sdSectionBody sourced_json
    ++ startMarker ++ code.toList ++ [chNewline]

/-! ## Harness parser (the child's evaluation of the injection prelude)

`parseHarness` reads the generated script the way the child interpreter
does: it recognises the fixed header, evaluates each
`attachments[...] = ...` assignment by Python literal semantics, evaluates
the `questions_txt` and `sourced_data` sections (base64 decode of the
single-quoted payload, then UTF-8 decode), finds the user-code marker and
returns the bindings together with the user code.  Its success and its
result being exactly the injected values is the formal statement that no
payload can alter the syntactic structure of the harness. -/

def parseInjLine (l : List Char) : Option ((String × List Nat) × List Char) :=
  (dropLit attToken l).bind fun r1 =>
    (parseStrLit r1).bind fun p1 =>
      (dropLit "] = ".toList p1.2).bind fun r3 =>
        (parseBytesLit r3).map fun p2 => ((String.mk p1.1, p2.1), p2.2)

def parseInjLines : Nat → List Char → Option (List (String × List Nat) × List Char)
  | 0, _ => none
  | fuel + 1, l =>
    if listStartsWith attToken l then
      (parseInjLine l).bind fun p =>
        match p.2 with
        | c :: rest2 =>
          if c.toNat = 10 then
            (parseInjLines fuel rest2).map (fun p2 => (p.1 :: p2.1, p2.2))
          else none
        | [] => none
    else some ([], l)

def skipOneNl : List Char → List Char
  | [] => []
  | c :: rest => if c.toNat = 10 then rest else c :: rest

def parseQSection (l : List Char) : Option (String × List Char) :=
  if listStartsWith "questions_txt = ''\n".toList l then
    (dropLit "questions_txt = ''\n".toList l).map (fun r => ("", r))
  else
    (dropLit "# Inject questions_txt\n_qt_b64 = '".toList l).bind fun r1 =>
      (takeUntilChar chQuote r1).bind fun p =>
        (dropLit "\nquestions_txt = base64.b64decode(_qt_b64).decode('utf-8', 'ignore')\n".toList
            p.2).bind fun r3 =>
          (b64DecodeList p.1).map (fun bytes => (utf8DecodeIgnoreStr bytes, r3))

def parseSdSection (l : List Char) : Option (Option String × List Char) :=
  if listStartsWith "sourced_data = None\n".toList l then
    (dropLit "sourced_data = None\n".toList l).map (fun r => (none, r))
  else
    (dropLit "# Inject sourced_data (JSON-deserialized)\n_sd_b64 = '".toList l).bind fun r1 =>
      (takeUntilChar chQuote r1).bind fun p =>
        (dropLit "\nsourced_data = json.loads(base64.b64decode(_sd_b64).decode('utf-8', 'ignore'))\n".toList
            p.2).bind fun r3 =>
          (b64DecodeList p.1).map (fun bytes => (some (utf8DecodeIgnoreStr bytes), r3))

def splitFinalNl (l : List Char) : Option String :=
  match l.getLast? with
  | some c => if c.toNat = 10 then some (String.mk l.dropLast) else none
  | none => none

def parseHarness (script : List Char) :
    Option (List (String × List Nat) × String × Option String × String) :=
  (dropLit harnessHeaderStr.toList script).bind fun r0 =>
    (parseInjLines (r0.length + 1) r0).bind fun pInj =>
      (parseQSection (skipOneNl pInj.2)).bind fun pQ =>
        match pQ.2 with
        | c :: r2 =>
          if c.toNat = 10 then
            (parseSdSection r2).bind fun pSd =>
              (dropLit startMarker pSd.2).bind fun r4 =>
                (splitFinalNl r4).map (fun code => (pInj.1, pQ.1, pSd.1, code))
          else none
        | [] => none

/-! ## `run_python_in_sandbox` (sandbox.py lines 49-89)

The OS-level outcome of `subprocess.run` is the oracle `ProcOutcome`:
normal completion with exit code and captured byte streams, a
`subprocess.TimeoutExpired`, or any other launch/OS exception with its
message.  `sandboxRunInner` is `_run`'s mapping of that outcome to
`(returncode, stdout, stderr, errflag)`; the wrapper decodes the streams
with `errors='ignore'`, computes `ok`, and best-effort parses stdout as
JSON.  The function is total: no path raises to the caller. -/

inductive ProcOutcome where
  | completed (returncode : Int) (stdout stderr : List Nat)
  | timedOut
  | launchFailed (msg : String)

def sandboxRunInner : ProcOutcome → Int × List Nat × List Nat × Option String
  | .completed rc out err => (rc, out, err, none)
  | .timedOut => (1, [], utf8EncodeStr "timeout", some "timeout")
  | .launchFailed msg => (1, [], utf8EncodeStr msg, some msg)

structure SandboxResult where
  ok : Bool
  stdout : String
  stderr : String
  stdout_json : Option JsonVal

def run_python_in_sandbox (printable : Char → Bool) (code : String)
    (attachments : List (String × List Nat)) (questions_txt : Option String)
    (sourced_json : Option String) (proc : ProcOutcome) : SandboxResult :=
  let _script := _build_script printable code attachments questions_txt sourced_json
  let r := sandboxRunInner proc
  let out := utf8DecodeIgnoreStr r.2.1
  let err := utf8DecodeIgnoreStr r.2.2.1
  { ok := (r.1 == 0) && r.2.2.2.isNone
    stdout := out
    stderr := err
    stdout_json := jsonParse out }

/-! ## Output validator (`app/agents/validator.py` lines 15-134)

`validate_output` in oracle form: the single external call
(`asyncio.wait_for(asyncio.to_thread(generate_plain, ...))`) is a
`GenOutcome` — a response string, an `asyncio.TimeoutError`, or any other
exception.  The library calls `json.loads` (lines 41, 110, 112) are the
oracle `loads : String → Option JsonVal`, `none` meaning the call raised;
a most-faithful instantiation on machine-integer documents is `jsonParse`.
Python returns the raw verdict values (`validation_json.get`) whose only
observable use is the caller's truthiness test, modelled by `pyTruthy`;
the non-`str` feedback value is carried as a `JsonVal`.  The
parse-failure and not-a-dict (`AttributeError` from `.get`) paths both land
in the same `except` clause returning `(False, diagnostic)`, modelled by
the `verdictObj loads _ = none` branch.  The function is total: every path
of the source returns a pair, never raises. -/

inductive GenOutcome where
  | ok (s : String)
  | timedOut
  | err (msg : String)

/-- Python truthiness of a JSON value (`if is_valid:`). -/
def pyTruthy : JsonVal → Bool
  | .null => false
  | .bool b => b
  | .num n => n != 0
  | .str s => s != ""
  | .arr [] => false
  | .arr (_ :: _) => true
  | .obj [] => false
  | .obj (_ :: _) => true

/-- `dict.get(key, default)`; with duplicate keys the last wins, as in a
dict built by `json.loads`. -/
def objGet : List (String × JsonVal) → String → JsonVal → JsonVal
  | [], _, dflt => dflt
  | (k, v) :: rest, key, dflt => objGet rest key (if k == key then v else dflt)

/-- `s[:n]`. -/
def strTake (s : String) (n : Nat) : String := String.mk (s.toList.take n)

/-- The characters CPython's `str.strip()` removes: the ASCII whitespace
and separator controls `\t\n\v\f\r`, `\x1c`-`\x1f`, space, `\x85`, `\xa0`,
and the Unicode space/line/paragraph separators ` `,
` `-` `, ` `, ` `, ` `, ` `, `　`. -/
def pyIsSpace (c : Char) : Bool :=
  (9 ≤ c.toNat ∧ c.toNat ≤ 13) ∨ (28 ≤ c.toNat ∧ c.toNat ≤ 32)
    ∨ c.toNat = 0x85 ∨ c.toNat = 0xa0 ∨ c.toNat = 0x1680
    ∨ (0x2000 ≤ c.toNat ∧ c.toNat ≤ 0x200a)
    ∨ c.toNat = 0x2028 ∨ c.toNat = 0x2029 ∨ c.toNat = 0x202f
    ∨ c.toNat = 0x205f ∨ c.toNat = 0x3000

/-- `not s or not s.strip()`: empty, or every character is stripped. -/
def pyStripEmpty (s : String) : Bool :=
  s.toList.all pyIsSpace

/-- Split around the first occurrence of `pat`: `(before, after)`. -/
def splitFirstSub (pat : List Char) : List Char → Option (List Char × List Char)
  | [] => if pat.isEmpty then some ([], []) else none
  | c :: rest =>
    if listStartsWith pat (c :: rest) then
      (dropLit pat (c :: rest)).map (fun r => ([], r))
    else (splitFirstSub pat rest).map (fun p => (c :: p.1, p.2))

/-- `re.search(r'```json\n(.*?)\n```', resp, re.DOTALL)`: the text between
the first ```json opener and the next newline-fence closer. -/
def searchJsonFence (resp : String) : Option String :=
  (splitFirstSub "```json\n".toList resp.toList).bind fun p1 =>
    (splitFirstSub "\n```".toList p1.2).map fun p2 => String.mk p2.1

/-- `stdout_json`, falling back to `json.loads(stdout)` (validator.py lines
36-42), the library call being the `loads` oracle. -/
def resolvedOutput (loads : String → Option JsonVal) (out : SandboxResult) :
    Option JsonVal :=
  match out.stdout_json with
  | some j => some j
  | none => loads out.stdout

/-- The verdict dict, if the response (fenced or raw) parses as a JSON
object; `none` covers both `json.loads` failure and the `AttributeError`
of `.get` on a non-dict. -/
def verdictObj (loads : String → Option JsonVal) (resp : String) :
    Option (List (String × JsonVal)) :=
  match (match searchJsonFence resp with
         | some g => loads g
         | none => loads resp) with
  | some (.obj kvs) => some kvs
  | _ => none

def validate_output (loads : String → Option JsonVal)
    (questions_txt generated_code : String) (code_output : SandboxResult)
    (gen : GenOutcome) (timeout : Int) : Bool × JsonVal :=
  if ¬ code_output.ok then
    (false, .str ("Code execution failed with error: " ++ code_output.stderr))
  else
    match resolvedOutput loads code_output with
    | none => (false, .str ("Code did not produce valid JSON output. Stdout was: "
        ++ strTake code_output.stdout 500))
    | some _ =>
      match gen with
      | .timedOut => (true, .str ("Validator timed out after " ++ toString timeout
          ++ "s, assuming output is valid"))
      | .err e => (true, .str ("Validator API failed, assuming output is valid: " ++ e))
      | .ok resp =>
        if pyStripEmpty resp then
          (true, .str "Validator returned empty response, assuming output is valid")
        else
          match verdictObj loads resp with
          | some kvs =>
            (pyTruthy (objGet kvs "valid" (.bool false)),
              objGet kvs "feedback" (.str "Unknown validation error"))
          | none => (false, .str ("Validation parsing error. Raw response: "
              ++ strTake resp 200))

/-! ## Code generation adapter (`app/agents/coding_agent.py` lines 12-91)

The external generator `generate_code` is the oracle `gen`; the prompt is
assembled as in the source (mode-specific system preamble, task
instructions and context, feedback appended on retries).  The system
preamble literals are abbreviated to their first line: their content flows
only into the oracle argument and affects no verified property.  When the
generator is unavailable or times out, `llm.generate_code` returns the
canonical stub script `stubScript` (llm.py lines 120, 135, 154, 158,
168). -/

def stubScript : String := "import json\nprint(json.dumps(['stub']))\n"

def stubMarker : String := "print(json.dumps(['stub']))"

def sysPromptSource : String :=
  "You are a senior data engineer. Generate a single, self-contained Python script that SOURCES data only."

def sysPromptCode : String :=
  "You are a senior data engineer. Generate a single, self-contained Python script that produces exactly the final answers in the requested format."

def buildPrompt (taskInstructions taskContext mode : String)
    (feedback : Option String) : String :=
  let sys := if mode == "source" then sysPromptSource else sysPromptCode
  let user := "\nTASK INSTRUCTIONS:\n" ++ taskInstructions ++ "\n\nCONTEXT:\n" ++ taskContext ++ "\n"
  let user := match feedback with
    | some fb => user ++ "\n\nFEEDBACK FROM PREVIOUS ATTEMPT:\n" ++ fb
        ++ "\n\nPlease fix the issues mentioned in the feedback and regenerate the code."
    | none => user
  sys ++ "\n\n" ++ user

/-- `re.findall(r"```python\n(.*?)```", code, re.S)`: all fenced blocks, in
order. -/
def pythonFences : Nat → List Char → List (List Char)
  | 0, _ => []
  | fuel + 1, l =>
    match splitFirstSub "```python\n".toList l with
    | none => []
    | some p =>
      match splitFirstSub "```".toList p.2 with
      | none => []
      | some p2 => p2.1 :: pythonFences fuel p2.2

def lastPythonFence (s : String) : Option String :=
  match (pythonFences (s.toList.length + 1) s.toList).getLast? with
  | some m => some (String.mk m)
  | none => none

def generate_code_for_task (gen : String → String)
    (taskInstructions taskContext mode : String) (feedback : Option String) :
    Except String String :=
  let code := gen (buildPrompt taskInstructions taskContext mode feedback)
  if code == "" then Except.error "Empty code from model"
  else if strContains code stubMarker then
    Except.error "Generated stub code instead of real implementation"
  else match lastPythonFence code with
    | some m => Except.ok m
    | none => Except.ok code

/-! ## Pipeline orchestrator (`app/agents/pipeline.py` lines 13-246)

`run_pipeline` with its external collaborators as oracles:

* `elapsed` — the wall clock: `remaining()` is
  `max(5, deadline_secs - int(time.time() - start))` (line 15); each
  evaluation of `remaining()` in the source consumes the next value of the
  `elapsed` stream, in program order;
* `fmt` — the result of `extract_expected_format` (which catches every
  exception internally and returns `None`, format_extractor.py lines
  106-113; the pipeline's own `try` at lines 25-36 likewise leaves
  `expected_format = None` on failure), so an `Option JsonVal`;
* `gen` — `generate_code_for_task` per attempt: code or a raised
  `CodeGenError`/exception (`Except`);
* `exec` — `run_python_in_sandbox` per attempt: a result dict or a raised
  exception, which the source converts to
  `{"ok": False, "stderr": str(e), "stdout": ""}` (line 160; the resulting
  dict has no `stdout_json` key, so `.get("stdout_json")` is `None`);
* `valid` — `validate_output` per attempt: a verdict pair or a raised
  exception;
* `validLate` — whether `validation_elapsed > validator_timeout` at lines
  206-210 (wall-clock measurement), forcing `is_valid = True`;
* `feedback` — `generate_feedback_for_retry`, which never raises (it
  returns a synthesized fallback string on timeout or error, validator.py
  lines 182-192), so a plain `String` per attempt.

The run also returns a trace: one `Event` per stage dispatch, recording the
attempt index, the `remaining()` value of the guard check preceding the
stage (`guardR`), the `remaining()` value read when computing the stage
timeout (`tR`), the timeout passed to the stage, and (for generation) the
feedback argument.  `ExitKind` names the `return` statement that ended the
run.  The embedding is a total function: every stage exception is caught
exactly where the source catches it. -/

structure PipelineEnv where
  elapsed : Nat → Int
  fmt : Option JsonVal
  gen : Nat → Option String → Except String String
  exec : Nat → String → Except String SandboxResult
  valid : Nat → Except String (Bool × String)
  validLate : Nat → Bool
  feedback : Nat → String

/-- `remaining = lambda: max(5, deadline_secs - int(time.time() - start))`
(pipeline.py line 15). -/
def remainingFn (deadline_secs elapsed : Int) : Int := max 5 (deadline_secs - elapsed)

inductive Stage where
  | extractFmt
  | genFeedback
  | generate
  | execute
  | validate
deriving DecidableEq

structure Event where
  stage : Stage
  attempt : Nat
  guardR : Int
  tR : Int
  timeout : Int
  fb : Option String
deriving DecidableEq

/-- Which `return` statement of `run_pipeline` ended the run:
`preGenTimeout` = line 71 (`remaining() <= 10`), `preFeedbackTimeout` =
line 85 (`remaining() <= 30`), `genFailExhausted` = line 123 (generation
failed on the final attempt), `preExecTimeout` = line 131
(`remaining() <= 15`), `preValidReturn` = lines 166-176
(`remaining() <= 20`, degraded return), `success` = line 226, `exhausted`
= line 240 (max attempts, no valid result), `fallthrough` = line 246 (the
unreachable trailing fallback). -/
inductive ExitKind where
  | preGenTimeout
  | preFeedbackTimeout
  | genFailExhausted
  | preExecTimeout
  | preValidReturn
  | success
  | exhausted
  | fallthrough
deriving DecidableEq

structure LoopSt where
  idx : Nat
  trace : List Event

def readClock (env : PipelineEnv) (deadline : Int) (st : LoopSt) : Int × LoopSt :=
  (remainingFn deadline (env.elapsed st.idx), ⟨st.idx + 1, st.trace⟩)

def addEvent (st : LoopSt) (e : Event) : LoopSt := ⟨st.idx, st.trace ++ [e]⟩

/-- Python truthiness of `current_code` at line 79
(`if attempt > 0 and current_code:`): unset or empty string is falsy. -/
def pyTruthyStr : Option String → Bool
  | none => false
  | some s => s != ""

/-- Success-path output resolution (pipeline.py lines 214-219): parsed
stdout, else `json.loads(stdout)`, else the raw stdout string. -/
def resolveSuccessOutput (r : SandboxResult) : JsonVal :=
  match r.stdout_json with
  | some j => j
  | none =>
    match jsonParse r.stdout with
    | some j => j
    | none => .str r.stdout

/-- Degraded-path output resolution (pipeline.py lines 166-173): parsed
stdout, else `json.loads(stdout)`, else the populated fallback template. -/
def resolveDegraded (fmt : Option JsonVal) (r : SandboxResult) : JsonVal :=
  match r.stdout_json with
  | some j => j
  | none =>
    match jsonParse r.stdout with
    | some j => j
    | none => populate_format_with_timeout_message fmt

inductive AttemptOut where
  | done (res : JsonVal) (exit : ExitKind)
  | retry (cur : Option String)

/-- The attempt body from code generation onwards (pipeline.py lines
102-240): generation, the pre-execution budget check, execution, the
pre-validation budget check, validation, and the final-attempt check.
`guardR1` is the `remaining()` value of the loop-head check (line 65) that
admitted this attempt. -/
def attemptAfterFb (env : PipelineEnv) (deadline : Int) (maxRetries attempt : Nat)
    (cur : Option String) (guardR1 : Int) (fb : Option String) (st2 : LoopSt) :
    AttemptOut × LoopSt :=
  let p4 := readClock env deadline st2
  let st4 := addEvent p4.2 ⟨.generate, attempt, guardR1, p4.1, min 60 p4.1, fb⟩
  match env.gen attempt fb with
  | .error _ =>
    if attempt == maxRetries - 1 then
      (.done (populate_format_with_timeout_message env.fmt) .genFailExhausted, st4)
    else (.retry cur, st4)
  | .ok code =>
    let p5 := readClock env deadline st4
    if p5.1 ≤ 15 then
      (.done (populate_format_with_timeout_message env.fmt) .preExecTimeout, p5.2)
    else
      let p6 := readClock env deadline p5.2
      let st6 := addEvent p6.2 ⟨.execute, attempt, p5.1, p6.1, min 90 p6.1, none⟩
      let lastResult := match env.exec attempt code with
        | .ok r => r
        | .error e => ⟨false, "", e, none⟩
      let p7 := readClock env deadline st6
      if p7.1 ≤ 20 then
        if lastResult.ok then
          (.done (resolveDegraded env.fmt lastResult) .preValidReturn, p7.2)
        else
          (.done (populate_format_with_timeout_message env.fmt) .preValidReturn, p7.2)
      else
        if lastResult.ok then
          let p8 := readClock env deadline p7.2
          let st8 := addEvent p8.2 ⟨.validate, attempt, p7.1, p8.1, min 15 (p8.1 - 5), none⟩
          match env.valid attempt with
          | .error _ =>
            if attempt == maxRetries - 1 then
              (.done (populate_format_with_timeout_message env.fmt) .exhausted, st8)
            else (.retry (some code), st8)
          | .ok (isValid0, _) =>
            let isValid := if env.validLate attempt then true else isValid0
            if isValid then
              (.done (resolveSuccessOutput lastResult) .success, st8)
            else if attempt == maxRetries - 1 then
              (.done (populate_format_with_timeout_message env.fmt) .exhausted, st8)
            else (.retry (some code), st8)
        else if attempt == maxRetries - 1 then
          (.done (populate_format_with_timeout_message env.fmt) .exhausted, p7.2)
        else (.retry (some code), p7.2)

/-- One iteration of the `for attempt in range(max_retries)` loop
(pipeline.py lines 63-240), up to but excluding the next iteration: the
loop-head budget check (line 65), the feedback block (lines 78-100), then
`attemptAfterFb`; either a `return` (`done`) or fall-through to the next
attempt (`retry`, carrying `current_code`). -/
def attemptBody (env : PipelineEnv) (deadline : Int) (maxRetries attempt : Nat)
    (cur : Option String) (st : LoopSt) : AttemptOut × LoopSt :=
  let p1 := readClock env deadline st
  if p1.1 ≤ 10 then
    (.done (populate_format_with_timeout_message env.fmt) .preGenTimeout, p1.2)
  else if 0 < attempt ∧ pyTruthyStr cur then
    let p2 := readClock env deadline p1.2
    if p2.1 ≤ 30 then
      (.done (populate_format_with_timeout_message env.fmt) .preFeedbackTimeout, p2.2)
    else
      let p3 := readClock env deadline p2.2
      let st3 := addEvent p3.2 ⟨.genFeedback, attempt, p2.1, p3.1, min 15 (p3.1 - 10), none⟩
      attemptAfterFb env deadline maxRetries attempt cur p1.1
        (some (env.feedback attempt)) st3
  else attemptAfterFb env deadline maxRetries attempt cur p1.1 none p1.2

def pipelineLoop (env : PipelineEnv) (deadline : Int) (maxRetries : Nat) :
    Nat → Nat → Option String → LoopSt → JsonVal × ExitKind × LoopSt
  | 0, _, _, st => (populate_format_with_timeout_message env.fmt, .fallthrough, st)
  | fuel + 1, attempt, cur, st =>
    match attemptBody env deadline maxRetries attempt cur st with
    | (.done res ex, st') => (res, ex, st')
    | (.retry cur', st') => pipelineLoop env deadline maxRetries fuel (attempt + 1) cur' st'

/-- `run_pipeline` (pipeline.py lines 13-246): format extraction with
timeout `min(30, remaining())`, then the three-attempt loop
(`max_retries = 3`, `current_code = None`). -/
def run_pipeline (env : PipelineEnv) (deadline_secs : Int) : JsonVal × ExitKind × List Event :=
  let p := readClock env deadline_secs ⟨0, []⟩
  let st1 := addEvent p.2 ⟨.extractFmt, 0, p.1, p.1, min 30 p.1, none⟩
  let r := pipelineLoop env deadline_secs 3 3 0 none st1
  (r.1, r.2.1, r.2.2.trace)

/-- The per-stage timeout cap of the source: 30 for format extraction
(line 28), 15 for feedback (line 96), 60 for generation (line 105), 90 for
execution (line 142), 15 for validation (line 185). -/
def stageCap : Stage → Int
  | .extractFmt => 30
  | .genFeedback => 15
  | .generate => 60
  | .execute => 90
  | .validate => 15

/-- The per-run invariant of every dispatched stage event: all clock reads
are at least the floor 5; the guard read preceding each expensive stage
exceeds its threshold (10 before generation, 15 before execution, 20
before validation, 30 before feedback generation); and the timeout passed
to the stage is exactly the source's formula over the timeout-time
remaining value. -/
def eventOk (e : Event) : Prop :=
  5 ≤ e.guardR ∧ 5 ≤ e.tR
  ∧ (e.stage = .generate → 10 < e.guardR ∧ e.timeout = min 60 e.tR)
  ∧ (e.stage = .execute → 15 < e.guardR ∧ e.timeout = min 90 e.tR)
  ∧ (e.stage = .extractFmt → e.timeout = min 30 e.tR)
  ∧ (e.stage = .validate → 20 < e.guardR ∧ e.timeout = min 15 (e.tR - 5))
  ∧ (e.stage = .genFeedback → 30 < e.guardR ∧ e.timeout = min 15 (e.tR - 10))

/-- The number of generation events in a trace. -/
def genCount (tr : List Event) : Nat :=
  tr.countP (fun e => e.stage == Stage.generate)

/-- A concrete pipeline environment in which every oracle succeeds and the
clock jumps to 90 s elapsed exactly when the validator timeout is computed
(the seventh clock read of the run), exposing the validator's
`min(15, remaining() - 5)` timeout. -/
def cexEnvC1 : PipelineEnv :=
  { elapsed := fun n => if n ≤ 5 then 0 else 90
    fmt := none
    gen := fun _ _ => Except.ok "print(1)"
    exec := fun _ _ => Except.ok ⟨true, "[1]", "", some (JsonVal.arr [JsonVal.num 1])⟩
    valid := fun _ => Except.ok (true, "")
    validLate := fun _ => false
    feedback := fun _ => "fb" }

/-- A concrete pipeline environment whose clock jumps to 85 s elapsed at
the pre-validation budget check (the sixth clock read), driving the run
into the degraded path of pipeline.py lines 163-173: execution succeeded,
so the early return delivers the parsed sandbox output, not the fallback
template. -/
def cexEnvC1b : PipelineEnv :=
  { elapsed := fun n => if n ≤ 4 then 0 else 85
    fmt := none
    gen := fun _ _ => Except.ok "print(7)"
    exec := fun _ _ => Except.ok ⟨true, "[7]", "", some (JsonVal.arr [JsonVal.num 7])⟩
    valid := fun _ => Except.ok (true, "")
    validLate := fun _ => false
    feedback := fun _ => "fb" }

/-- A pipeline environment whose clock starts past the budget: every read
reports 95 s elapsed. -/
def wEnvC1 : PipelineEnv :=
  { elapsed := fun _ => 95
    fmt := none
    gen := fun _ _ => Except.ok "print(1)"
    exec := fun _ _ => Except.ok ⟨true, "[1]", "", some (JsonVal.arr [JsonVal.num 1])⟩
    valid := fun _ => Except.ok (true, "")
    validLate := fun _ => false
    feedback := fun _ => "fb" }

/-- A pipeline environment in which generation and execution always
succeed but the validator always rejects, so the run retries until the
attempts are exhausted. -/
def wEnvC4 : PipelineEnv :=
  { elapsed := fun _ => 0
    fmt := none
    gen := fun _ _ => Except.ok "print(1)"
    exec := fun _ _ => Except.ok ⟨true, "[1]", "", some (JsonVal.arr [JsonVal.num 1])⟩
    valid := fun _ => Except.ok (false, "wrong shape")
    validLate := fun _ => false
    feedback := fun _ => "fix it" }

/-- Same exhausting environment, used to drive `run_pipeline` into the
`exhausted` exit. -/
def wEnvC7 : PipelineEnv :=
  { elapsed := fun _ => 0
    fmt := none
    gen := fun _ _ => Except.ok "print(1)"
    exec := fun _ _ => Except.ok ⟨true, "[1]", "", some (JsonVal.arr [JsonVal.num 1])⟩
    valid := fun _ => Except.ok (false, "wrong shape")
    validLate := fun _ => false
    feedback := fun _ => "fix it" }

/-- A pipeline environment observed entirely after its deadline: every
clock read reports 120 s elapsed. -/
def wEnvC10 : PipelineEnv :=
  { elapsed := fun _ => 120
    fmt := none
    gen := fun _ _ => Except.ok "print(1)"
    exec := fun _ _ => Except.ok ⟨true, "[1]", "", some (JsonVal.arr [JsonVal.num 1])⟩
    valid := fun _ => Except.ok (true, "")
    validLate := fun _ => false
    feedback := fun _ => "fb" }

/-- `fillEntry` is exactly `fill_template` pointwise, so the inlining in
`fillPairs` is faithful to `fill_template(v) if isinstance(v, (dict, list))
else _default_for(v)`. -/
theorem fillEntry_eq_fill_template : ∀ v, fillEntry v = fill_template v
  | .null => rfl
  | .bool _ => rfl
  | .num _ => rfl
  | .str _ => rfl
  | .arr [] => rfl
  | .arr (_ :: _) => rfl
  | .obj _ => rfl

mutual

theorem fill_template_idem : ∀ v, fill_template (fill_template v) = fill_template v
  | .null => rfl
  | .bool _ => rfl
  | .num _ => rfl
  | .str _ => rfl
  | .arr [] => rfl
  | .arr (x :: t) => by
      simp only [fill_template]
      rw [fill_template_idem x]
  | .obj kvs => by
      simp only [fill_template]
      rw [fillPairs_idem kvs]

theorem fillPairs_idem : ∀ l, fillPairs (fillPairs l) = fillPairs l
  | [] => rfl
  | (k, v) :: rest => by
      simp only [fillPairs]
      rw [fillPairs_idem rest, fillEntry_eq_fill_template,
        fillEntry_eq_fill_template, fill_template_idem v]

end

/-- Keys of a populated object are the keys of the template object. -/
theorem fillPairs_keys : ∀ l : List (String × JsonVal),
    (fillPairs l).map Prod.fst = l.map Prod.fst
  | [] => rfl
  | (k, v) :: rest => by
      simp only [fillPairs, List.map_cons, fillPairs_keys rest]

/-- C8: `populate_format_with_timeout_message` applied to `None` returns the
fixed sentinel object `{"error": "timeout", "result": "default"}`; applied
to a non-`None` template it rewrites every string leaf to `"default"`,
every number to `0`, every boolean to `false`, `null`/unknown leaves to
`"default"`, every **non-empty** array to a single representative
recursively defaulted element, and preserves all object keys. -/
theorem claim_C8_populate_fallback :
    populate_format_with_timeout_message none
        = .obj [("error", .str "timeout"), ("result", .str "default")]
    ∧ (∀ t, populate_format_with_timeout_message (some t) = fill_template t)
    ∧ (∀ s, fill_template (.str s) = .str "default")
    ∧ (∀ n, fill_template (.num n) = .num 0)
    ∧ (∀ b, fill_template (.bool b) = .bool false)
    ∧ fill_template .null = .str "default"
    ∧ (∀ x t, fill_template (.arr (x :: t)) = .arr [fill_template x])
    ∧ (∀ kvs, ∃ kvs', fill_template (.obj kvs) = .obj kvs'
        ∧ kvs'.map Prod.fst = kvs.map Prod.fst) := by
  refine ⟨rfl, fun t => rfl, fun s => rfl, fun n => rfl, fun b => rfl, rfl,
    fun x t => rfl, fun kvs => ⟨fillPairs kvs, rfl, fillPairs_keys kvs⟩⟩

/-- C8 counterexample to the claim as stated: an empty array template is
*not* rewritten to a single representative element; it stays empty. -/
theorem claim_C8_cex_empty_array :
    ¬ ∃ x, populate_format_with_timeout_message (some (.arr [])) = .arr [x] := by
  rintro ⟨x, h⟩
  simp only [populate_format_with_timeout_message, fill_template] at h
  cases h

/-- C9: `populate_format_with_timeout_message` is idempotent over format
templates: populating a template twice yields exactly the same value as
populating it once (placeholder leaves are fixed points of
`_default_for`). -/
theorem claim_C9_populate_idempotent (t : JsonVal) :
    populate_format_with_timeout_message
        (some (populate_format_with_timeout_message (some t)))
      = populate_format_with_timeout_message (some t) :=
  fill_template_idem t

/-- C9 witness: idempotence evaluated at a concrete nested template. -/
theorem claim_C9_witness :
    populate_format_with_timeout_message
        (some (populate_format_with_timeout_message
          (some (.obj [("a", .num 7), ("b", .arr [.str "x", .str "y"])]))))
      = populate_format_with_timeout_message
          (some (.obj [("a", .num 7), ("b", .arr [.str "x", .str "y"])])) :=
  claim_C9_populate_idempotent (.obj [("a", .num 7), ("b", .arr [.str "x", .str "y"])])

/-! ## Round-trip facts for the transport encodings -/

theorem char_toNat_lt (c : Char) : c.toNat < 0x110000 := by
  have h := c.valid
  rcases h with h | h
  · exact lt_trans h (by norm_num)
  · exact h.2

theorem utf8DecodeStep_encode (c : Char) (rest : List Nat) :
    utf8DecodeStep (utf8EncodeChar c ++ rest) = some (some c, rest) := by
  have hlt := char_toNat_lt c
  simp only [utf8EncodeChar]
  by_cases h1 : c.toNat < 0x80
  · rw [if_pos h1]
    simp only [List.cons_append, List.nil_append, utf8DecodeStep]
    rw [if_pos h1, Char.ofNat_toNat]
  · by_cases h2 : c.toNat < 0x800
    · rw [if_neg h1, if_pos h2]
      simp only [List.cons_append, List.nil_append, utf8DecodeStep]
      have hc : isCont (0x80 + c.toNat % 64) = true := by
        simp only [isCont, decide_eq_true_eq]
        omega
      rw [if_neg (by omega), if_neg (by omega), if_pos (by omega), if_pos hc]
      have he : (0xC0 + c.toNat / 64 - 0xC0) * 64 + (0x80 + c.toNat % 64 - 0x80) = c.toNat := by
        omega
      rw [he, Char.ofNat_toNat]
    · by_cases h3 : c.toNat < 0x10000
      · rw [if_neg h1, if_neg h2, if_pos h3]
        simp only [List.cons_append, List.nil_append, utf8DecodeStep]
        have hc : (isCont (0x80 + c.toNat / 64 % 64) = true
            ∧ isCont (0x80 + c.toNat % 64) = true) := by
          constructor <;> (simp only [isCont, decide_eq_true_eq]; omega)
        rw [if_neg (by omega), if_neg (by omega), if_neg (by omega), if_pos (by omega),
          if_pos hc]
        have ha := Nat.div_add_mod (c.toNat / 64) 64
        have hb := Nat.div_add_mod c.toNat 64
        have hdd : c.toNat / 64 / 64 = c.toNat / 4096 := by rw [Nat.div_div_eq_div_mul]
        have he : (0xE0 + c.toNat / 4096 - 0xE0) * 4096 + (0x80 + c.toNat / 64 % 64 - 0x80) * 64
            + (0x80 + c.toNat % 64 - 0x80) = c.toNat := by omega
        rw [he, Char.ofNat_toNat]
      · rw [if_neg h1, if_neg h2, if_neg h3]
        simp only [List.cons_append, List.nil_append, utf8DecodeStep]
        have hc : (isCont (0x80 + c.toNat / 4096 % 64) = true
            ∧ isCont (0x80 + c.toNat / 64 % 64) = true
            ∧ isCont (0x80 + c.toNat % 64) = true) := by
          refine ⟨?_, ?_, ?_⟩ <;> (simp only [isCont, decide_eq_true_eq]; omega)
        rw [if_neg (by omega), if_neg (by omega), if_neg (by omega), if_neg (by omega),
          if_pos (by omega), if_pos hc]
        have ha := Nat.div_add_mod (c.toNat / 64) 64
        have hb := Nat.div_add_mod c.toNat 64
        have hdd : c.toNat / 64 / 64 = c.toNat / 4096 := by rw [Nat.div_div_eq_div_mul]
        have hd := Nat.div_add_mod (c.toNat / 4096) 64
        have hf : c.toNat / 4096 / 64 = c.toNat / 262144 := by rw [Nat.div_div_eq_div_mul]
        have he : (0xF0 + c.toNat / 262144 - 0xF0) * 262144
            + (0x80 + c.toNat / 4096 % 64 - 0x80) * 4096
            + (0x80 + c.toNat / 64 % 64 - 0x80) * 64 + (0x80 + c.toNat % 64 - 0x80)
            = c.toNat := by omega
        rw [he, Char.ofNat_toNat]

theorem utf8EncodeChar_len (c : Char) : 1 ≤ (utf8EncodeChar c).length := by
  simp only [utf8EncodeChar]
  repeat' split
  all_goals simp

theorem utf8EncodeChar_lt (c : Char) : ∀ b ∈ utf8EncodeChar c, b < 256 := by
  have hlt := char_toNat_lt c
  simp only [utf8EncodeChar]
  split
  · simp only [List.mem_singleton]
    omega
  · split
    · simp only [List.mem_cons, List.not_mem_nil, or_false]
      rintro b (rfl | rfl) <;> omega
    · split
      · simp only [List.mem_cons, List.not_mem_nil, or_false]
        rintro b (rfl | rfl | rfl) <;> omega
      · simp only [List.mem_cons, List.not_mem_nil, or_false]
        rintro b (rfl | rfl | rfl | rfl) <;> omega

theorem utf8EncodeList_lt : ∀ l : List Char, ∀ b ∈ utf8EncodeList l, b < 256
  | [] => by simp [utf8EncodeList]
  | c :: cs => by
      simp only [utf8EncodeList, List.mem_append]
      rintro b (h | h)
      · exact utf8EncodeChar_lt c b h
      · exact utf8EncodeList_lt cs b h

theorem utf8DecodeAux_encode : ∀ cs : List Char, ∀ fuel : Nat,
    (utf8EncodeList cs).length ≤ fuel → utf8DecodeAux fuel (utf8EncodeList cs) = cs
  | [], 0, _ => rfl
  | [], _ + 1, _ => rfl
  | c :: cs, fuel, h => by
      cases fuel with
      | zero =>
        exfalso
        simp only [utf8EncodeList, List.length_append] at h
        have := utf8EncodeChar_len c
        omega
      | succ f =>
        have hstep := utf8DecodeStep_encode c (utf8EncodeList cs)
        simp only [utf8EncodeList]
        cases hfe : utf8EncodeChar c with
        | nil =>
          exfalso
          have := utf8EncodeChar_len c
          rw [hfe] at this
          simp at this
        | cons b bs =>
          rw [hfe, List.cons_append] at hstep
          rw [List.cons_append]
          simp only [utf8DecodeAux, hstep]
          have hrec := utf8DecodeAux_encode cs f (by
            simp only [utf8EncodeList, List.length_append] at h
            have := utf8EncodeChar_len c
            omega)
          rw [hrec]

theorem utf8_roundtrip (cs : List Char) :
    utf8DecodeIgnore (utf8EncodeList cs) = cs :=
  utf8DecodeAux_encode cs _ le_rfl

theorem utf8_roundtrip_str (s : String) :
    utf8DecodeIgnoreStr (utf8EncodeStr s) = s := by
  cases s with
  | mk data =>
    show String.mk (utf8DecodeIgnore (utf8EncodeList data)) = String.mk data
    rw [utf8_roundtrip]

theorem b64Index_b64Char : ∀ i < 64, b64Index (b64Char i) = some i := by decide

theorem b64Char_ne_pad : ∀ i < 64, b64Char i ≠ b64Pad := by decide

theorem b64_roundtrip : ∀ l : List Nat, (∀ b ∈ l, b < 256) →
    b64DecodeList (b64EncodeList l) = some l
  | [], _ => rfl
  | [a], h => by
      have ha : a < 256 := h a (by simp)
      simp only [b64EncodeList, b64DecodeList]
      rw [if_pos (show True ∧ True from ⟨trivial, trivial⟩),
        b64Index_b64Char _ (by omega), b64Index_b64Char _ (by omega)]
      simp only [Option.bind, Option.some.injEq, List.cons.injEq, and_true]
      omega
  | [a, b], h => by
      have ha : a < 256 := h a (by simp)
      have hb : b < 256 := h b (by simp)
      simp only [b64EncodeList, b64DecodeList]
      rw [if_neg (show ¬(b64Char (b % 16 * 4) = b64Pad ∧ True) from
          fun hcon => b64Char_ne_pad (b % 16 * 4) (by omega) hcon.1),
        if_pos trivial, b64Index_b64Char _ (by omega),
        b64Index_b64Char _ (by omega), b64Index_b64Char _ (by omega)]
      simp only [Option.bind, Option.some.injEq, List.cons.injEq, and_true]
      omega
  | a :: b :: c :: rest, h => by
      have ha : a < 256 := h a (by simp)
      have hb : b < 256 := h b (by simp)
      have hc : c < 256 := h c (by simp)
      have hrec := b64_roundtrip rest (fun x hx => h x (by simp [hx]))
      cases hre : b64EncodeList rest with
      | nil =>
        rw [hre] at hrec
        simp only [b64EncodeList, hre, b64DecodeList]
        rw [if_neg (show ¬(b64Char (b % 16 * 4 + c / 64) = b64Pad
              ∧ b64Char (c % 64) = b64Pad)
            from fun hcon => b64Char_ne_pad (b % 16 * 4 + c / 64) (by omega) hcon.1),
          if_neg (b64Char_ne_pad (c % 64) (by omega)),
          b64Index_b64Char _ (by omega), b64Index_b64Char _ (by omega),
          b64Index_b64Char _ (by omega), b64Index_b64Char _ (by omega)]
        simp only [b64DecodeList] at hrec
        injection hrec with hrec'
        rw [← hrec']
        simp only [Option.bind, Option.some.injEq, List.cons.injEq, and_true]
        omega
      | cons x xs =>
        simp only [b64EncodeList, hre, b64DecodeList]
        rw [b64Index_b64Char _ (by omega), b64Index_b64Char _ (by omega),
          b64Index_b64Char _ (by omega), b64Index_b64Char _ (by omega), ← hre, hrec]
        simp only [Option.bind, Option.some.injEq, List.cons.injEq, and_true]
        omega
  termination_by l => l.length

/-- Every character emitted by the base64 encoder is in the 65-character
alphabet-plus-padding set; in particular it is never an apostrophe (39),
newline (10), carriage return (13), backslash (92) or double quote (34),
so a base64 payload can never terminate or escape the single-quoted string
literal into which `_build_script` interpolates it. -/
theorem b64Char_safe : ∀ i < 64, (b64Char i).toNat ≠ 39 ∧ (b64Char i).toNat ≠ 10
    ∧ (b64Char i).toNat ≠ 13 ∧ (b64Char i).toNat ≠ 92 ∧ (b64Char i).toNat ≠ 34 := by
  decide

theorem b64EncodeList_safe : ∀ l : List Nat, (∀ b ∈ l, b < 256) →
    ∀ c ∈ b64EncodeList l, c.toNat ≠ 39 ∧ c.toNat ≠ 10
  | [], _ => by simp [b64EncodeList]
  | [a], h => by
      have ha : a < 256 := h a (by simp)
      simp only [b64EncodeList, List.mem_cons, List.not_mem_nil, or_false]
      rintro c (rfl | rfl | rfl | rfl)
      · exact ⟨(b64Char_safe _ (by omega)).1, (b64Char_safe _ (by omega)).2.1⟩
      · exact ⟨(b64Char_safe _ (by omega)).1, (b64Char_safe _ (by omega)).2.1⟩
      · exact ⟨by decide, by decide⟩
      · exact ⟨by decide, by decide⟩
  | [a, b], h => by
      have ha : a < 256 := h a (by simp)
      have hb : b < 256 := h b (by simp)
      simp only [b64EncodeList, List.mem_cons, List.not_mem_nil, or_false]
      rintro c (rfl | rfl | rfl | rfl)
      · exact ⟨(b64Char_safe _ (by omega)).1, (b64Char_safe _ (by omega)).2.1⟩
      · exact ⟨(b64Char_safe _ (by omega)).1, (b64Char_safe _ (by omega)).2.1⟩
      · exact ⟨(b64Char_safe _ (by omega)).1, (b64Char_safe _ (by omega)).2.1⟩
      · exact ⟨by decide, by decide⟩
  | a :: b :: c :: rest, h => by
      have ha : a < 256 := h a (by simp)
      have hb : b < 256 := h b (by simp)
      have hc : c < 256 := h c (by simp)
      have hrec := b64EncodeList_safe rest (fun x hx => h x (by simp [hx]))
      simp only [b64EncodeList, List.mem_cons]
      rintro d (rfl | rfl | rfl | rfl | hd)
      · exact ⟨(b64Char_safe _ (by omega)).1, (b64Char_safe _ (by omega)).2.1⟩
      · exact ⟨(b64Char_safe _ (by omega)).1, (b64Char_safe _ (by omega)).2.1⟩
      · exact ⟨(b64Char_safe _ (by omega)).1, (b64Char_safe _ (by omega)).2.1⟩
      · exact ⟨(b64Char_safe _ (by omega)).1, (b64Char_safe _ (by omega)).2.1⟩
      · exact hrec d hd
  termination_by l => l.length

/-! ## Python literal round-trips -/

theorem charOfNat_toNat_lt (n : Nat) (h : n < 0xd800) : (Char.ofNat n).toNat = n := by
  have hv : n.isValidChar := Or.inl h
  simp [Char.ofNat, hv, Char.toNat, Char.ofNatAux, UInt32.toNat, BitVec.toNat_ofNatLt]

theorem hexDigit_roundtrip : ∀ n < 16, decHexDigit (hexDigitChar n) = some n := by decide

theorem parseBytesBody_escBytes (q : Nat) (hq : q = 39 ∨ q = 34) :
    ∀ v rest, (∀ b ∈ v, b < 256) →
      parseBytesBody q (escBytes q v ++ Char.ofNat q :: rest) = some (v, rest)
  | [], rest, _ => by
      have hqt : (Char.ofNat q).toNat = q :=
        charOfNat_toNat_lt q (by rcases hq with h' | h' <;> omega)
      rw [escBytes, List.nil_append, parseBytesBody.eq_def]
      simp only [hqt]
      exact if_pos trivial
  | b :: bs, rest, h => by
      have hb : b < 256 := h b (by simp)
      have ih := parseBytesBody_escBytes q hq bs rest (fun x hx => h x (by simp [hx]))
      have hq92 : ¬ (92 = q) := by rcases hq with h' | h' <;> omega
      have hqlt : q < 0xd800 := by rcases hq with h' | h' <;> omega
      have hqt : (Char.ofNat q).toNat = q := charOfNat_toNat_lt q hqlt
      rw [escBytes, List.append_assoc]
      by_cases h92 : b = 92
      · subst h92
        rw [show escByte q 92 = [chBackslash, chBackslash] from by simp [escByte]]
        rw [List.cons_append, List.cons_append, List.nil_append, parseBytesBody.eq_def]
        simp [chBackslash, charOfNat_toNat_lt 92 (by omega), hq92, if_false,
          ite_false, ite_true, if_true, eq_self_iff_true, ih, Option.map]
      · by_cases hbq : b = q
        · subst hbq
          rw [show escByte b b = [chBackslash, Char.ofNat b] from by
            simp [escByte, (show ¬ b = 92 from h92)]]
          rw [List.cons_append, List.cons_append, List.nil_append, parseBytesBody.eq_def]
          rcases hq with h' | h' <;> subst h'
          · simp [chBackslash, charOfNat_toNat_lt 92 (by omega),
              charOfNat_toNat_lt 39 (by omega), if_false, ite_false, ite_true, if_true,
              eq_self_iff_true, ih, Option.map]
          · simp [chBackslash, charOfNat_toNat_lt 92 (by omega),
              charOfNat_toNat_lt 34 (by omega), if_false, ite_false, ite_true, if_true,
              eq_self_iff_true, ih, Option.map]
        · by_cases h9 : b = 9
          · subst h9
            rw [show escByte q 9 = [chBackslash, Char.ofNat 116] from by
              simp [escByte, fun hc => hbq hc]]
            rw [List.cons_append, List.cons_append, List.nil_append, parseBytesBody.eq_def]
            simp [chBackslash, charOfNat_toNat_lt 92 (by omega),
              charOfNat_toNat_lt 116 (by omega), hq92, if_false, ite_false, ite_true,
              if_true, eq_self_iff_true, ih, Option.map]
          · by_cases h10 : b = 10
            · subst h10
              rw [show escByte q 10 = [chBackslash, Char.ofNat 110] from by
                simp [escByte, fun hc => hbq hc]]
              rw [List.cons_append, List.cons_append, List.nil_append, parseBytesBody.eq_def]
              simp [chBackslash, charOfNat_toNat_lt 92 (by omega),
                charOfNat_toNat_lt 110 (by omega), hq92, if_false, ite_false, ite_true,
                if_true, eq_self_iff_true, ih, Option.map]
            · by_cases h13 : b = 13
              · subst h13
                rw [show escByte q 13 = [chBackslash, Char.ofNat 114] from by
                  simp [escByte, fun hc => hbq hc]]
                rw [List.cons_append, List.cons_append, List.nil_append, parseBytesBody.eq_def]
                simp [chBackslash, charOfNat_toNat_lt 92 (by omega),
                  charOfNat_toNat_lt 114 (by omega), hq92, if_false, ite_false, ite_true,
                  if_true, eq_self_iff_true, ih, Option.map]
              · by_cases hhex : b < 32 ∨ 127 ≤ b
                · rw [show escByte q b = [chBackslash, Char.ofNat 120, hexDigitChar (b / 16),
                      hexDigitChar (b % 16)] from by
                    simp [escByte, h92, fun hc => hbq hc, h9, h10, h13, hhex]]
                  rw [List.cons_append, List.cons_append, List.cons_append,
                    List.cons_append, List.nil_append, parseBytesBody.eq_def]
                  simp [chBackslash, charOfNat_toNat_lt 92 (by omega),
                    charOfNat_toNat_lt 120 (by omega), hq92, if_false, ite_false, ite_true,
                    if_true, eq_self_iff_true,
                    hexDigit_roundtrip (b / 16) (by omega),
                    hexDigit_roundtrip (b % 16) (by omega), Option.bind, ih, Option.map]
                  have he : 16 * (b / 16) + b % 16 = b := by omega
                  rw [he]
                · have hbne : ¬ ((Char.ofNat b).toNat = q) := by
                    rw [charOfNat_toNat_lt b (by omega)]
                    exact fun hc => hbq hc
                  rw [show escByte q b = [Char.ofNat b] from by
                    simp [escByte, h92, fun hc => hbq hc, h9, h10, h13, hhex]]
                  rw [List.cons_append, List.nil_append, parseBytesBody.eq_def]
                  simp [charOfNat_toNat_lt b (by omega), fun hc => hbq hc, hq92,
                    if_false, ite_false, ite_true, if_true, eq_self_iff_true, ih, Option.map,
                    (show ¬ (b = q) from fun hc => hbq hc),
                    (show ¬ (b = 92) from h92), (show ¬ (b = 10 ∨ b = 13) from by omega)]

theorem chBackslash_toNat : chBackslash.toNat = 92 := by decide

theorem chQuote_toNat : chQuote.toNat = 39 := by decide

theorem chDQuote_toNat : chDQuote.toNat = 34 := by decide

theorem parseStrEsc_backslash (X : List Char) :
    parseStrEsc chBackslash X = some (chBackslash, X) := by
  simp [parseStrEsc, chBackslash_toNat]

theorem parseStrEsc_quote (X : List Char) :
    parseStrEsc (Char.ofNat 39) X = some (Char.ofNat 39, X) := by
  simp [parseStrEsc, charOfNat_toNat_lt 39 (by omega), chQuote]

theorem parseStrEsc_dquote (X : List Char) :
    parseStrEsc (Char.ofNat 34) X = some (Char.ofNat 34, X) := by
  simp only [parseStrEsc, charOfNat_toNat_lt 34 (by omega)]
  norm_num
  rfl

theorem parseStrEsc_tab (X : List Char) :
    parseStrEsc (Char.ofNat 116) X = some (Char.ofNat 9, X) := by
  simp [parseStrEsc, charOfNat_toNat_lt 116 (by omega)]

theorem parseStrEsc_nl (X : List Char) :
    parseStrEsc (Char.ofNat 110) X = some (Char.ofNat 10, X) := by
  simp [parseStrEsc, charOfNat_toNat_lt 110 (by omega)]

theorem parseStrEsc_cr (X : List Char) :
    parseStrEsc (Char.ofNat 114) X = some (Char.ofNat 13, X) := by
  simp [parseStrEsc, charOfNat_toNat_lt 114 (by omega)]

theorem parseStrEsc_hex2 (a b : Nat) (ha : a < 16) (hb : b < 16) (X : List Char) :
    parseStrEsc (Char.ofNat 120) (hexDigitChar a :: hexDigitChar b :: X)
      = some (Char.ofNat (16 * a + b), X) := by
  simp [parseStrEsc, charOfNat_toNat_lt 120 (by omega),
    hexDigit_roundtrip a ha, hexDigit_roundtrip b hb, Option.bind]

theorem parseStrEsc_hex4 (a b c d : Nat) (ha : a < 16) (hb : b < 16) (hc : c < 16)
    (hd : d < 16) (X : List Char) :
    parseStrEsc (Char.ofNat 117)
        (hexDigitChar a :: hexDigitChar b :: hexDigitChar c :: hexDigitChar d :: X)
      = some (Char.ofNat (4096 * a + 256 * b + 16 * c + d), X) := by
  simp [parseStrEsc, charOfNat_toNat_lt 117 (by omega),
    hexDigit_roundtrip a ha, hexDigit_roundtrip b hb, hexDigit_roundtrip c hc,
    hexDigit_roundtrip d hd, Option.bind]

theorem parseStrEsc_hex8 (a b c d e f g h : Nat) (ha : a < 16) (hb : b < 16)
    (hc : c < 16) (hd : d < 16) (he : e < 16) (hf : f < 16) (hg : g < 16) (hh : h < 16)
    (X : List Char) :
    parseStrEsc (Char.ofNat 85)
        (hexDigitChar a :: hexDigitChar b :: hexDigitChar c :: hexDigitChar d
          :: hexDigitChar e :: hexDigitChar f :: hexDigitChar g :: hexDigitChar h :: X)
      = some (Char.ofNat (268435456 * a + 16777216 * b + 1048576 * c + 65536 * d
          + 4096 * e + 256 * f + 16 * g + h), X) := by
  simp [parseStrEsc, charOfNat_toNat_lt 85 (by omega),
    hexDigit_roundtrip a ha, hexDigit_roundtrip b hb, hexDigit_roundtrip c hc,
    hexDigit_roundtrip d hd, hexDigit_roundtrip e he, hexDigit_roundtrip f hf,
    hexDigit_roundtrip g hg, hexDigit_roundtrip h hh, Option.bind]

theorem parseStrBody_escStr (q : Nat) (hq : q = 39 ∨ q = 34) (printable : Char → Bool) :
    ∀ v rest fuel, (escStr q printable v).length < fuel →
      parseStrBody fuel q (escStr q printable v ++ Char.ofNat q :: rest) = some (v, rest)
  | [], rest, fuel, hf => by
      have hqt : (Char.ofNat q).toNat = q :=
        charOfNat_toNat_lt q (by rcases hq with h' | h' <;> omega)
      cases fuel with
      | zero => omega
      | succ f =>
        rw [escStr, List.nil_append, parseStrBody.eq_def]
        simp only [hqt]
        exact if_pos trivial
  | c :: cs, rest, fuel, hf => by
      have hcmax : c.toNat < 1114112 := by
        rcases c.valid with h' | h'
        · exact lt_trans h' (by norm_num)
        · exact h'.2
      have hq92 : ¬ (92 = q) := by rcases hq with h' | h' <;> omega
      have hq9 : ¬ (9 = q) := by rcases hq with h' | h' <;> omega
      have hq10 : ¬ (10 = q) := by rcases hq with h' | h' <;> omega
      have hq13 : ¬ (13 = q) := by rcases hq with h' | h' <;> omega
      have hqlt : q < 0xd800 := by rcases hq with h' | h' <;> omega
      have hqt : (Char.ofNat q).toNat = q := charOfNat_toNat_lt q hqlt
      rw [escStr] at hf ⊢
      rw [List.append_assoc]
      rw [List.length_append] at hf
      cases fuel with
      | zero => omega
      | succ f =>
        have ihf : (escStr q printable cs).length < f → _ :=
          parseStrBody_escStr q hq printable cs rest f
      -- branch on the escape shape of c
        by_cases h92 : c.toNat = 92
        · have hsh : escStrChar q printable c = [chBackslash, chBackslash] := by
            simp [escStrChar, h92]
          rw [hsh] at hf ⊢
          have ih := ihf (by simp at hf ⊢; omega)
          rw [List.cons_append, List.cons_append, List.nil_append, parseStrBody.eq_def]
          have hc : c = chBackslash := by
            rw [← Char.ofNat_toNat c, h92]
            rfl
          simp [chBackslash_toNat, hq92, parseStrEsc_backslash, ih, Option.map, hc]
        · by_cases hbq : c.toNat = q
          · have hsh : escStrChar q printable c = [chBackslash, Char.ofNat q] := by
              simp [escStrChar, h92, hbq, (show ¬ q = 92 from fun hcc => hq92 hcc.symm)]
            rw [hsh] at hf ⊢
            have ih := ihf (by simp at hf ⊢; omega)
            rw [List.cons_append, List.cons_append, List.nil_append, parseStrBody.eq_def]
            have hc : c = Char.ofNat q := by rw [← Char.ofNat_toNat c, hbq]
            rcases hq with h' | h' <;> subst h'
            · simp [chBackslash_toNat, parseStrEsc_quote, ih, Option.map, hc]
            · simp [chBackslash_toNat, parseStrEsc_dquote, ih, Option.map, hc]
          · by_cases h9 : c.toNat = 9
            · have hsh : escStrChar q printable c = [chBackslash, Char.ofNat 116] := by
                simp [escStrChar, h92, hbq, h9, hq9]
              rw [hsh] at hf ⊢
              have ih := ihf (by simp at hf ⊢; omega)
              rw [List.cons_append, List.cons_append, List.nil_append, parseStrBody.eq_def]
              have hc : c = Char.ofNat 9 := by rw [← Char.ofNat_toNat c, h9]
              simp [chBackslash_toNat, hq92, parseStrEsc_tab, ih, Option.map, hc]
            · by_cases h10 : c.toNat = 10
              · have hsh : escStrChar q printable c = [chBackslash, Char.ofNat 110] := by
                  simp [escStrChar, h92, hbq, h9, h10, hq10]
                rw [hsh] at hf ⊢
                have ih := ihf (by simp at hf ⊢; omega)
                rw [List.cons_append, List.cons_append, List.nil_append, parseStrBody.eq_def]
                have hc : c = Char.ofNat 10 := by rw [← Char.ofNat_toNat c, h10]
                simp [chBackslash_toNat, hq92, parseStrEsc_nl, ih, Option.map, hc]
              · by_cases h13 : c.toNat = 13
                · have hsh : escStrChar q printable c = [chBackslash, Char.ofNat 114] := by
                    simp [escStrChar, h92, hbq, h9, h10, h13, hq13]
                  rw [hsh] at hf ⊢
                  have ih := ihf (by simp at hf ⊢; omega)
                  rw [List.cons_append, List.cons_append, List.nil_append,
                    parseStrBody.eq_def]
                  have hc : c = Char.ofNat 13 := by rw [← Char.ofNat_toNat c, h13]
                  simp [chBackslash_toNat, hq92, parseStrEsc_cr, ih, Option.map, hc]
                · by_cases hctl : c.toNat < 32 ∨ c.toNat = 127
                  · have hsh : escStrChar q printable c = [chBackslash, Char.ofNat 120,
                        hexDigitChar (c.toNat / 16), hexDigitChar (c.toNat % 16)] := by
                      simp [escStrChar, h92, hbq, h9, h10, h13, hctl]
                    rw [hsh] at hf ⊢
                    have ih := ihf (by simp at hf ⊢; omega)
                    rw [List.cons_append, List.cons_append, List.cons_append,
                      List.cons_append, List.nil_append, parseStrBody.eq_def]
                    have he : 16 * (c.toNat / 16) + c.toNat % 16 = c.toNat := by omega
                    simp [chBackslash_toNat, hq92,
                      parseStrEsc_hex2 (c.toNat / 16) (c.toNat % 16) (by omega) (by omega),
                      ih, Option.map, he, Char.ofNat_toNat]
                  · by_cases hascii : c.toNat < 127
                    · have hsh : escStrChar q printable c = [c] := by
                        simp [escStrChar, h92, hbq, h9, h10, h13, hctl, hascii]
                      rw [hsh] at hf ⊢
                      have ih := ihf (by simp at hf ⊢; omega)
                      rw [List.cons_append, List.nil_append, parseStrBody.eq_def]
                      simp [hbq, h92, h9, h10, h13, ih, Option.map]
                    · by_cases hpr : printable c = true
                      · have hsh : escStrChar q printable c = [c] := by
                          simp [escStrChar, h92, hbq, h9, h10, h13, hctl, hascii, hpr]
                        rw [hsh] at hf ⊢
                        have ih := ihf (by simp at hf ⊢; omega)
                        rw [List.cons_append, List.nil_append, parseStrBody.eq_def]
                        simp [hbq, h92, h9, h10, h13, ih, Option.map]
                      · by_cases hff : c.toNat ≤ 255
                        · have hsh : escStrChar q printable c = [chBackslash,
                              Char.ofNat 120, hexDigitChar (c.toNat / 16),
                              hexDigitChar (c.toNat % 16)] := by
                            simp [escStrChar, h92, hbq, h9, h10, h13, hctl, hascii,
                              hpr, hff]
                          rw [hsh] at hf ⊢
                          have ih := ihf (by simp at hf ⊢; omega)
                          rw [List.cons_append, List.cons_append, List.cons_append,
                            List.cons_append, List.nil_append, parseStrBody.eq_def]
                          have he : 16 * (c.toNat / 16) + c.toNat % 16 = c.toNat := by
                            omega
                          simp [chBackslash_toNat, hq92,
                            parseStrEsc_hex2 (c.toNat / 16) (c.toNat % 16) (by omega)
                              (by omega),
                            ih, Option.map, he, Char.ofNat_toNat]
                        · by_cases hffff : c.toNat ≤ 65535
                          · have hsh : escStrChar q printable c = [chBackslash,
                                Char.ofNat 117, hexDigitChar (c.toNat / 4096 % 16),
                                hexDigitChar (c.toNat / 256 % 16),
                                hexDigitChar (c.toNat / 16 % 16),
                                hexDigitChar (c.toNat % 16)] := by
                              simp [escStrChar, h92, hbq, h9, h10, h13, hctl, hascii,
                                hpr, hff, hffff]
                            rw [hsh] at hf ⊢
                            have ih := ihf (by simp at hf ⊢; omega)
                            rw [List.cons_append, List.cons_append, List.cons_append,
                              List.cons_append, List.cons_append, List.cons_append,
                              List.nil_append, parseStrBody.eq_def]
                            have e1 : c.toNat / 16 / 16 = c.toNat / 256 := by
                              rw [Nat.div_div_eq_div_mul]
                            have e2 : c.toNat / 256 / 16 = c.toNat / 4096 := by
                              rw [Nat.div_div_eq_div_mul]
                            have a1 := Nat.div_add_mod c.toNat 16
                            have a2 := Nat.div_add_mod (c.toNat / 16) 16
                            have a3 := Nat.div_add_mod (c.toNat / 256) 16
                            have he : 4096 * (c.toNat / 4096 % 16)
                                + 256 * (c.toNat / 256 % 16) + 16 * (c.toNat / 16 % 16)
                                + c.toNat % 16 = c.toNat := by omega
                            simp [chBackslash_toNat, hq92,
                              parseStrEsc_hex4 (c.toNat / 4096 % 16) (c.toNat / 256 % 16)
                                (c.toNat / 16 % 16) (c.toNat % 16) (by omega) (by omega)
                                (by omega) (by omega),
                              ih, Option.map, he, Char.ofNat_toNat]
                          · have hsh : escStrChar q printable c = [chBackslash,
                                Char.ofNat 85, hexDigitChar (c.toNat / 268435456 % 16),
                                hexDigitChar (c.toNat / 16777216 % 16),
                                hexDigitChar (c.toNat / 1048576 % 16),
                                hexDigitChar (c.toNat / 65536 % 16),
                                hexDigitChar (c.toNat / 4096 % 16),
                                hexDigitChar (c.toNat / 256 % 16),
                                hexDigitChar (c.toNat / 16 % 16),
                                hexDigitChar (c.toNat % 16)] := by
                              simp [escStrChar, h92, hbq, h9, h10, h13, hctl, hascii,
                                hpr, hff, hffff]
                            rw [hsh] at hf ⊢
                            have ih := ihf (by simp at hf ⊢; omega)
                            rw [List.cons_append, List.cons_append, List.cons_append,
                              List.cons_append, List.cons_append, List.cons_append,
                              List.cons_append, List.cons_append, List.cons_append,
                              List.cons_append, List.nil_append, parseStrBody.eq_def]
                            have e1 : c.toNat / 16 / 16 = c.toNat / 256 := by
                              rw [Nat.div_div_eq_div_mul]
                            have e2 : c.toNat / 256 / 16 = c.toNat / 4096 := by
                              rw [Nat.div_div_eq_div_mul]
                            have e3 : c.toNat / 4096 / 16 = c.toNat / 65536 := by
                              rw [Nat.div_div_eq_div_mul]
                            have e4 : c.toNat / 65536 / 16 = c.toNat / 1048576 := by
                              rw [Nat.div_div_eq_div_mul]
                            have e5 : c.toNat / 1048576 / 16 = c.toNat / 16777216 := by
                              rw [Nat.div_div_eq_div_mul]
                            have e6 : c.toNat / 16777216 / 16 = c.toNat / 268435456 := by
                              rw [Nat.div_div_eq_div_mul]
                            have a1 := Nat.div_add_mod c.toNat 16
                            have a2 := Nat.div_add_mod (c.toNat / 16) 16
                            have a3 := Nat.div_add_mod (c.toNat / 256) 16
                            have a4 := Nat.div_add_mod (c.toNat / 4096) 16
                            have a5 := Nat.div_add_mod (c.toNat / 65536) 16
                            have a6 := Nat.div_add_mod (c.toNat / 1048576) 16
                            have a7 := Nat.div_add_mod (c.toNat / 16777216) 16
                            have he : 268435456 * (c.toNat / 268435456 % 16)
                                + 16777216 * (c.toNat / 16777216 % 16)
                                + 1048576 * (c.toNat / 1048576 % 16)
                                + 65536 * (c.toNat / 65536 % 16)
                                + 4096 * (c.toNat / 4096 % 16)
                                + 256 * (c.toNat / 256 % 16)
                                + 16 * (c.toNat / 16 % 16) + c.toNat % 16 = c.toNat := by
                              omega
                            simp [chBackslash_toNat, hq92,
                              parseStrEsc_hex8 (c.toNat / 268435456 % 16)
                                (c.toNat / 16777216 % 16) (c.toNat / 1048576 % 16)
                                (c.toNat / 65536 % 16) (c.toNat / 4096 % 16)
                                (c.toNat / 256 % 16) (c.toNat / 16 % 16) (c.toNat % 16)
                                (by omega) (by omega) (by omega) (by omega) (by omega)
                                (by omega) (by omega) (by omega),
                              ih, Option.map, he, Char.ofNat_toNat]

/-! ## Round-trip of the generated harness (encoding safety) -/

theorem dropLit_append : ∀ lit rest : List Char, dropLit lit (lit ++ rest) = some rest
  | [], _ => rfl
  | c :: cs, rest => by
      simp only [List.cons_append, dropLit, beq_self_eq_true, if_true]
      exact dropLit_append cs rest

theorem listStartsWith_append : ∀ p rest : List Char, listStartsWith p (p ++ rest) = true
  | [], _ => rfl
  | c :: cs, rest => by
      simp only [List.cons_append, listStartsWith, beq_self_eq_true, Bool.true_and]
      exact listStartsWith_append cs rest

theorem takeUntilChar_append (stop : Char) : ∀ xs rest, (∀ c ∈ xs, ¬ c = stop) →
    takeUntilChar stop (xs ++ stop :: rest) = some (xs, rest)
  | [], rest, _ => by simp [takeUntilChar]
  | x :: xs, rest, h => by
      have hx : ¬ x = stop := h x (by simp)
      simp only [List.cons_append, takeUntilChar, List.append_eq]
      rw [if_neg (by simpa using hx),
        takeUntilChar_append stop xs rest (fun c hc => h c (by simp [hc]))]
      rfl

theorem reprQuoteStr_cases (s : List Char) : reprQuoteStr s = 39 ∨ reprQuoteStr s = 34 := by
  unfold reprQuoteStr
  split
  · exact Or.inr rfl
  · exact Or.inl rfl

theorem reprQuoteBytes_cases (v : List Nat) :
    reprQuoteBytes v = 39 ∨ reprQuoteBytes v = 34 := by
  unfold reprQuoteBytes
  split
  · exact Or.inr rfl
  · exact Or.inl rfl

theorem parseStrLit_general (q : Nat) (hq : q = 39 ∨ q = 34) (printable : Char → Bool)
    (s rest : List Char) :
    parseStrLit ((Char.ofNat q :: (escStr q printable s ++ [Char.ofNat q])) ++ rest)
      = some (s, rest) := by
  have hqt : (Char.ofNat q).toNat = q :=
    charOfNat_toNat_lt q (by rcases hq with h | h <;> omega)
  rw [List.cons_append, parseStrLit]
  rw [if_pos (by rw [hqt]; exact hq), hqt]
  rw [List.append_assoc, List.singleton_append]
  exact parseStrBody_escStr q hq printable s rest _ (by
    simp only [List.length_append, List.length_cons]
    omega)

theorem pyStrRepr_parse (printable : Char → Bool) (s rest : List Char) :
    parseStrLit (pyStrRepr printable s ++ rest) = some (s, rest) := by
  rw [pyStrRepr]
  exact parseStrLit_general (reprQuoteStr s) (reprQuoteStr_cases s) printable s rest

theorem parseBytesLit_general (q : Nat) (hq : q = 39 ∨ q = 34) (v : List Nat)
    (hv : ∀ b ∈ v, b < 256) (rest : List Char) :
    parseBytesLit ((Char.ofNat 98 :: Char.ofNat q :: (escBytes q v ++ [Char.ofNat q])) ++ rest)
      = some (v, rest) := by
  have hqt : (Char.ofNat q).toNat = q :=
    charOfNat_toNat_lt q (by rcases hq with h | h <;> omega)
  rw [List.cons_append, List.cons_append, parseBytesLit]
  rw [if_pos (by rw [charOfNat_toNat_lt 98 (by omega)])]
  rw [if_pos (by rw [hqt]; exact hq), hqt]
  rw [List.append_assoc, List.singleton_append]
  exact parseBytesBody_escBytes q hq v rest hv

theorem pyBytesRepr_parse (v : List Nat) (hv : ∀ b ∈ v, b < 256) (rest : List Char) :
    parseBytesLit (pyBytesRepr v ++ rest) = some (v, rest) := by
  rw [pyBytesRepr]
  exact parseBytesLit_general (reprQuoteBytes v) (reprQuoteBytes_cases v) v hv rest

theorem stringMk_toList (s : String) : String.mk s.toList = s := rfl

theorem parseInjLine_mk (printable : Char → Bool) (k : String) (v : List Nat)
    (hv : ∀ b ∈ v, b < 256) (rest : List Char) :
    parseInjLine (mkInjLine printable k v ++ rest) = some ((k, v), rest) := by
  have hsh : mkInjLine printable k v ++ rest
      = attToken ++ (pyStrRepr printable k.toList
          ++ ("] = ".toList ++ (pyBytesRepr v ++ rest))) := by
    simp only [mkInjLine, List.append_assoc]
  rw [parseInjLine, hsh, dropLit_append]
  simp only [Option.bind]
  rw [pyStrRepr_parse]
  simp only [Option.bind]
  rw [dropLit_append]
  simp only [Option.bind]
  rw [pyBytesRepr_parse v hv]
  simp only [Option.map]
  rw [stringMk_toList]

theorem chNewline_toNat : chNewline.toNat = 10 := by decide

theorem joinNl_cons_cons (l1 l2 : List Char) (ls : List (List Char)) :
    joinNl (l1 :: l2 :: ls) = l1 ++ chNewline :: joinNl (l2 :: ls) := rfl

theorem parseInjLines_nil (fuel : Nat) (l : List Char)
    (h : listStartsWith attToken l = false) :
    parseInjLines (fuel + 1) l = some ([], l) := by
  rw [parseInjLines, h]
  simp

theorem parseInjLines_join (printable : Char → Bool) :
    ∀ atts : List (String × List Nat), ∀ fuel : Nat, ∀ qbody : List Char,
      atts.length < fuel →
      (∀ p ∈ atts, ∀ b ∈ p.2, b < 256) →
      listStartsWith attToken qbody = false →
      parseInjLines fuel
          (joinNl (atts.map (fun p => mkInjLine printable p.1 p.2)) ++ chNewline :: qbody)
        = some (atts, if atts.isEmpty then chNewline :: qbody else qbody)
  | [], fuel, qbody, hf, _, hq => by
      cases fuel with
      | zero => omega
      | succ f =>
        rw [List.map_nil, joinNl, List.nil_append, parseInjLines]
        have hsw : listStartsWith attToken (chNewline :: qbody) = false := rfl
        rw [hsw]
        simp
  | (k, v) :: as, fuel, qbody, hf, hb, hq => by
      cases fuel with
      | zero => omega
      | succ f =>
        have hvb : ∀ b ∈ v, b < 256 := fun b hb' => hb (k, v) (by simp) b hb'
        cases as with
        | nil =>
          rw [List.map_cons, List.map_nil, joinNl, parseInjLines]
          have hsw : listStartsWith attToken
              (mkInjLine printable k v ++ chNewline :: qbody) = true := by
            have hsh : mkInjLine printable k v ++ chNewline :: qbody
                = attToken ++ (pyStrRepr printable k.toList
                    ++ ("] = ".toList ++ (pyBytesRepr v ++ chNewline :: qbody))) := by
              simp only [mkInjLine, List.append_assoc]
            rw [hsh, listStartsWith_append]
          rw [hsw]
          simp only [if_true]
          rw [parseInjLine_mk printable k v hvb]
          simp only [Option.bind, chNewline_toNat, if_pos rfl]
          cases f with
          | zero => simp at hf
          | succ f2 =>
            rw [parseInjLines_nil f2 qbody hq]
            simp
        | cons a2 as2 =>
          rw [List.map_cons, List.map_cons, joinNl_cons_cons]
          have hre : (mkInjLine printable k v
                ++ chNewline :: joinNl (mkInjLine printable a2.1 a2.2
                  :: as2.map (fun p => mkInjLine printable p.1 p.2))) ++ chNewline :: qbody
              = mkInjLine printable k v
                ++ chNewline :: (joinNl (mkInjLine printable a2.1 a2.2
                  :: as2.map (fun p => mkInjLine printable p.1 p.2)) ++ chNewline :: qbody) := by
            simp only [List.append_assoc, List.cons_append]
          rw [hre, parseInjLines]
          have hsw : listStartsWith attToken (mkInjLine printable k v
              ++ chNewline :: (joinNl (mkInjLine printable a2.1 a2.2
                :: as2.map (fun p => mkInjLine printable p.1 p.2))
                  ++ chNewline :: qbody)) = true := by
            have hsh : mkInjLine printable k v
                ++ chNewline :: (joinNl (mkInjLine printable a2.1 a2.2
                  :: as2.map (fun p => mkInjLine printable p.1 p.2)) ++ chNewline :: qbody)
                = attToken ++ (pyStrRepr printable k.toList
                    ++ ("] = ".toList ++ (pyBytesRepr v
                      ++ chNewline :: (joinNl (mkInjLine printable a2.1 a2.2
                        :: as2.map (fun p => mkInjLine printable p.1 p.2))
                          ++ chNewline :: qbody)))) := by
              simp only [mkInjLine, List.append_assoc]
            rw [hsh, listStartsWith_append]
          rw [hsw]
          simp only [if_true]
          rw [parseInjLine_mk printable k v hvb]
          simp only [Option.bind, chNewline_toNat, if_pos rfl]
          have ih := parseInjLines_join printable (a2 :: as2) f qbody
            (by simp at hf ⊢; omega)
            (fun p hp => hb p (by simp [hp]))
            hq
          rw [List.map_cons] at ih
          rw [ih]
          simp

theorem b64EncodeStr_no_quote (bs : List Nat) (hb : ∀ b ∈ bs, b < 256) :
    ∀ c ∈ b64EncodeStr bs, ¬ c = chQuote := by
  intro c hc hcq
  have hsafe := (b64EncodeList_safe bs hb c hc).1
  rw [hcq] at hsafe
  exact hsafe chQuote_toNat

theorem parseQSection_some (s : String) (rest : List Char) :
    parseQSection (qSectionBody (some s) ++ rest) = some (s, rest) := by
  have hsh : qSectionBody (some s) ++ rest
      = "# Inject questions_txt\n_qt_b64 = '".toList
        ++ (b64EncodeStr (utf8EncodeStr s)
          ++ (chQuote ::
            ("\nquestions_txt = base64.b64decode(_qt_b64).decode('utf-8', 'ignore')\n".toList
              ++ rest))) := by
    simp only [qSectionBody, List.append_assoc]
    rfl
  rw [hsh, parseQSection]
  have hsw : ∀ Z : List Char, listStartsWith "questions_txt = ''\n".toList
      ("# Inject questions_txt\n_qt_b64 = '".toList ++ Z) = false := fun _ => rfl
  rw [hsw]
  simp only [Bool.false_eq_true, if_false, dropLit_append, Option.bind]
  rw [takeUntilChar_append chQuote _ _
    (b64EncodeStr_no_quote (utf8EncodeStr s) (utf8EncodeList_lt _))]
  simp only [Option.bind, dropLit_append]
  have hdec : b64DecodeList (b64EncodeStr (utf8EncodeStr s)) = some (utf8EncodeStr s) :=
    b64_roundtrip (utf8EncodeStr s) (utf8EncodeList_lt _)
  rw [hdec]
  simp only [Option.map]
  rw [utf8_roundtrip_str]

theorem parseQSection_none (rest : List Char) :
    parseQSection (qSectionBody none ++ rest) = some ("", rest) := by
  rw [qSectionBody, parseQSection]
  rw [listStartsWith_append]
  simp only [if_true, dropLit_append, Option.map]

theorem parseSdSection_some (s : String) (rest : List Char) :
    parseSdSection (sdSectionBody (some s) ++ rest) = some (some s, rest) := by
  have hsh : sdSectionBody (some s) ++ rest
      = "# Inject sourced_data (JSON-deserialized)\n_sd_b64 = '".toList
        ++ (b64EncodeStr (utf8EncodeStr s)
          ++ (chQuote ::
            ("\nsourced_data = json.loads(base64.b64decode(_sd_b64).decode('utf-8', 'ignore'))\n".toList
              ++ rest))) := by
    simp only [sdSectionBody, List.append_assoc]
    rfl
  rw [hsh, parseSdSection]
  have hsw : ∀ Z : List Char, listStartsWith "sourced_data = None\n".toList
      ("# Inject sourced_data (JSON-deserialized)\n_sd_b64 = '".toList ++ Z) = false :=
    fun _ => rfl
  rw [hsw]
  simp only [Bool.false_eq_true, if_false, dropLit_append, Option.bind]
  rw [takeUntilChar_append chQuote _ _
    (b64EncodeStr_no_quote (utf8EncodeStr s) (utf8EncodeList_lt _))]
  simp only [Option.bind, dropLit_append]
  have hdec : b64DecodeList (b64EncodeStr (utf8EncodeStr s)) = some (utf8EncodeStr s) :=
    b64_roundtrip (utf8EncodeStr s) (utf8EncodeList_lt _)
  rw [hdec]
  simp only [Option.map]
  rw [utf8_roundtrip_str]

theorem parseSdSection_none (rest : List Char) :
    parseSdSection (sdSectionBody none ++ rest) = some (none, rest) := by
  rw [sdSectionBody, parseSdSection]
  rw [listStartsWith_append]
  simp only [if_true, dropLit_append, Option.map]

theorem mkInjLine_len (printable : Char → Bool) (k : String) (v : List Nat) :
    1 ≤ (mkInjLine printable k v).length := by
  have h12 : attToken.length = 12 := rfl
  simp only [mkInjLine, List.length_append, h12]
  omega

theorem joinNl_len : ∀ ls : List (List Char), (∀ l ∈ ls, 1 ≤ l.length) →
    ls.length ≤ (joinNl ls).length
  | [], _ => le_rfl
  | [l], h => by
      simpa using h l (by simp)
  | l1 :: l2 :: ls, h => by
      rw [joinNl_cons_cons]
      have ih := joinNl_len (l2 :: ls) (fun l hl => h l (by simp at hl ⊢; tauto))
      have h1 := h l1 (by simp)
      simp only [List.length_append, List.length_cons] at ih ⊢
      omega

theorem skipOneNl_nl (l : List Char) : skipOneNl (chNewline :: l) = l := by
  rw [skipOneNl]
  simp [chNewline_toNat]

theorem splitFinalNl_concat (l : List Char) :
    splitFinalNl (l ++ [chNewline]) = some (String.mk l) := by
  rw [splitFinalNl, List.getLast?_concat]
  simp [chNewline_toNat, List.dropLast_concat]

theorem parseHarness_build_script (printable : Char → Bool) (code : String)
    (atts : List (String × List Nat)) (q : String) (sd : Option String)
    (hv : ∀ p ∈ atts, ∀ b ∈ p.2, b < 256) :
    parseHarness (_build_script printable code atts (some q) sd)
      = some (atts, q, sd, code) := by
  have hsh : _build_script printable code atts (some q) sd
      = harnessHeaderStr.toList
        ++ (joinNl (atts.map (fun p => mkInjLine printable p.1 p.2))
          ++ chNewline :: (qSectionBody (some q)
            ++ chNewline :: (sdSectionBody sd
              ++ (startMarker ++ (code.toList ++ [chNewline]))))) := by
    simp only [_build_script, List.append_assoc, List.cons_append]
  rw [hsh, parseHarness, dropLit_append]
  simp only [Option.bind]
  have hlen : atts.length
      < (joinNl (atts.map (fun p => mkInjLine printable p.1 p.2))
          ++ chNewline :: (qSectionBody (some q)
            ++ chNewline :: (sdSectionBody sd
              ++ (startMarker ++ (code.toList ++ [chNewline]))))).length + 1 := by
    have hjl := joinNl_len (atts.map (fun p => mkInjLine printable p.1 p.2)) (by
      intro l hl
      simp only [List.mem_map] at hl
      obtain ⟨p, _, rfl⟩ := hl
      exact mkInjLine_len printable p.1 p.2)
    simp only [List.length_map] at hjl
    simp only [List.length_append, List.length_cons]
    omega
  have hq1 : listStartsWith attToken
      (qSectionBody (some q) ++ chNewline :: (sdSectionBody sd
        ++ (startMarker ++ (code.toList ++ [chNewline])))) = false := by
    rw [qSectionBody]
    rfl
  rw [parseInjLines_join printable atts _ _ hlen hv hq1]
  simp only [Option.bind]
  have hskip : skipOneNl (if atts.isEmpty then
        chNewline :: (qSectionBody (some q) ++ chNewline :: (sdSectionBody sd
          ++ (startMarker ++ (code.toList ++ [chNewline]))))
      else qSectionBody (some q) ++ chNewline :: (sdSectionBody sd
          ++ (startMarker ++ (code.toList ++ [chNewline]))))
      = qSectionBody (some q) ++ chNewline :: (sdSectionBody sd
          ++ (startMarker ++ (code.toList ++ [chNewline]))) := by
    cases hA : atts.isEmpty
    · simp only [Bool.false_eq_true, if_false]
      rw [qSectionBody]
      rfl
    · simp only [if_true]
      exact skipOneNl_nl _
  rw [hskip, parseQSection_some]
  simp only [Option.bind, chNewline_toNat]
  cases sd with
  | none =>
    rw [parseSdSection_none]
    simp only [Option.bind, dropLit_append, splitFinalNl_concat, Option.map, stringMk_toList]
    exact if_pos trivial
  | some sdv =>
    rw [parseSdSection_some]
    simp only [Option.bind, dropLit_append, splitFinalNl_concat, Option.map, stringMk_toList]
    exact if_pos trivial

/-- C2: encoding safety of the sandbox harness.  For every attachments
mapping (arbitrary byte values: null bytes, quotes, backslashes, newlines,
multi-byte content) with arbitrary names, every questions string (including
ones containing the harness's own delimiter tokens), and every serialized
`sourced_data` payload, the script generated by `_build_script` parses back
under Python literal/base64/UTF-8 semantics to exactly the fixed harness
skeleton with the original attachment map, the original questions string and
the original user code: the injected bindings round-trip exactly
(`attachments[name] == original_bytes`, `questions_txt == original_string`)
and no injected value can alter the syntactic structure of the harness
(a payload that could terminate its literal early, escape it, or break the
line structure would make `parseHarness` return a different result).  Holds
for every printability oracle of the `str` repr. -/
theorem claim_C2_encoding_safety (printable : Char → Bool) (code : String)
    (attachments : List (String × List Nat)) (questions : String)
    (sourced_json : Option String)
    (hbytes : ∀ p ∈ attachments, ∀ b ∈ p.2, b < 256) :
    parseHarness (_build_script printable code attachments (some questions) sourced_json)
      = some (attachments, questions, sourced_json, code) :=
  parseHarness_build_script printable code attachments questions sourced_json hbytes

/-- C2 witness: a concrete adversarial instance with null bytes, both quote
kinds, backslashes, newlines, high bytes in the attachment values, quotes
and newlines in the attachment name, and the harness's own delimiter lines
inside the questions text. -/
theorem claim_C2_witness :
    (∀ p ∈ [("f.csv", [0, 39, 34, 92, 10, 13, 9, 65, 200, 255, 127, 31]),
        ("a'b\"c\nd\\e", [39, 39])], ∀ b ∈ Prod.snd p, b < 256)
    ∧ parseHarness (_build_script (fun _ => false) "print(1)"
        [("f.csv", [0, 39, 34, 92, 10, 13, 9, 65, 200, 255, 127, 31]),
          ("a'b\"c\nd\\e", [39, 39])]
        (some "q ' \"\n# Inject questions_txt\n_qt_b64 = 'x'\n\n# User code starts\n")
        (some "[1, 2]"))
      = some ([("f.csv", [0, 39, 34, 92, 10, 13, 9, 65, 200, 255, 127, 31]),
          ("a'b\"c\nd\\e", [39, 39])],
        "q ' \"\n# Inject questions_txt\n_qt_b64 = 'x'\n\n# User code starts\n",
        some "[1, 2]", "print(1)") :=
  ⟨by decide, claim_C2_encoding_safety (fun _ => false) "print(1)"
    [("f.csv", [0, 39, 34, 92, 10, 13, 9, 65, 200, 255, 127, 31]),
      ("a'b\"c\nd\\e", [39, 39])]
    "q ' \"\n# Inject questions_txt\n_qt_b64 = 'x'\n\n# User code starts\n"
    (some "[1, 2]") (by decide)⟩

/-! ## Claims C3, C5, C6 -/

/-- C3: for every code string, attachment map, questions text and sourced
payload, when the sandboxed child exceeds its timeout
(`subprocess.TimeoutExpired`) the execute operation returns a
`SandboxResult` with `ok = false`, `stderr` equal to the sentinel
`"timeout"` and `stdout = ""` (and no parsed JSON); and on any
process-launch or OS-level failure it returns `ok = false` with the error
text in `stderr` and `stdout = ""`.  `run_python_in_sandbox` is a total
function: no outcome raises to the caller. -/
theorem claim_C3_sandbox_failure_mapping (printable : Char → Bool) (code : String)
    (attachments : List (String × List Nat)) (questions_txt : Option String)
    (sourced_json : Option String) :
    run_python_in_sandbox printable code attachments questions_txt sourced_json
        ProcOutcome.timedOut
      = { ok := false, stdout := "", stderr := "timeout", stdout_json := none }
    ∧ ∀ msg : String,
        (run_python_in_sandbox printable code attachments questions_txt sourced_json
            (ProcOutcome.launchFailed msg)).ok = false
        ∧ (run_python_in_sandbox printable code attachments questions_txt sourced_json
            (ProcOutcome.launchFailed msg)).stderr = msg
        ∧ (run_python_in_sandbox printable code attachments questions_txt sourced_json
            (ProcOutcome.launchFailed msg)).stdout = ""
        ∧ (run_python_in_sandbox printable code attachments questions_txt sourced_json
            (ProcOutcome.launchFailed msg)).stdout_json = none := by
  refine ⟨rfl, fun msg => ⟨rfl, ?_, rfl, rfl⟩⟩
  show utf8DecodeIgnoreStr (utf8EncodeStr msg) = msg
  exact utf8_roundtrip_str msg

/-- C5: when the sandbox result has `ok = true` and a parseable output
(for any behaviour `loads` of the library's `json.loads`), a validator
whose underlying generator call times out or raises returns
`(true, diagnostic)` and never raises (fail-open; the embedding is a total
function); a blank response — empty or all `str.strip()` whitespace — is
the `generate_plain` unavailability signal and is likewise fail-open
(validator.py lines 99-102); whereas a non-blank generator response whose
verdict does not parse as a JSON object (fenced or raw: `loads` raises, or
yields a non-dict whose `.get` raises) yields `(false, diagnostic)`. -/
theorem claim_C5_validator_fail_open (loads : String → Option JsonVal)
    (questions code : String) (out : SandboxResult)
    (t : Int) (hok : out.ok = true) (hparse : resolvedOutput loads out ≠ none) :
    (validate_output loads questions code out GenOutcome.timedOut t).1 = true
    ∧ (∀ e, (validate_output loads questions code out (GenOutcome.err e) t).1 = true)
    ∧ (∀ resp, pyStripEmpty resp = true →
        (validate_output loads questions code out (GenOutcome.ok resp) t).1 = true)
    ∧ (∀ resp, pyStripEmpty resp = false → verdictObj loads resp = none →
        (validate_output loads questions code out (GenOutcome.ok resp) t).1 = false) := by
  obtain ⟨j, hj⟩ := Option.ne_none_iff_exists'.mp hparse
  refine ⟨?_, fun e => ?_, fun resp hstrip => ?_, fun resp hstrip hverd => ?_⟩
  all_goals rw [validate_output, if_neg (by rw [hok]; exact fun hcon => hcon rfl), hj]
  · simp only [hstrip, if_true]
  · simp only [hstrip, hverd, Bool.false_eq_true, if_false]

/-- C5 witness: a concrete successful sandbox result with `loads`
instantiated to `jsonParse`; a timed-out validator call is treated as
valid, the blank response `" "` (a no-break space, stripped by
`str.strip()`) is treated as valid, and the malformed verdict response
`"not a json verdict"` is treated as invalid. -/
theorem claim_C5_witness :
    (SandboxResult.mk true "[1]" "" (some (JsonVal.arr [JsonVal.num 1]))).ok = true
    ∧ resolvedOutput jsonParse
        (SandboxResult.mk true "[1]" "" (some (JsonVal.arr [JsonVal.num 1])))
        ≠ none
    ∧ pyStripEmpty " " = true
    ∧ pyStripEmpty "not a json verdict" = false
    ∧ verdictObj jsonParse "not a json verdict" = none
    ∧ (validate_output jsonParse "qs" "print(1)"
        (SandboxResult.mk true "[1]" "" (some (JsonVal.arr [JsonVal.num 1])))
        GenOutcome.timedOut 15).1 = true
    ∧ (validate_output jsonParse "qs" "print(1)"
        (SandboxResult.mk true "[1]" "" (some (JsonVal.arr [JsonVal.num 1])))
        (GenOutcome.ok " ") 15).1 = true
    ∧ (validate_output jsonParse "qs" "print(1)"
        (SandboxResult.mk true "[1]" "" (some (JsonVal.arr [JsonVal.num 1])))
        (GenOutcome.ok "not a json verdict") 15).1 = false := by
  refine ⟨rfl, fun h => Option.noConfusion h, by decide, rfl, rfl, ?_, ?_, ?_⟩
  · exact (claim_C5_validator_fail_open jsonParse "qs" "print(1)" _ 15 rfl
      (fun h => Option.noConfusion h)).1
  · exact (claim_C5_validator_fail_open jsonParse "qs" "print(1)" _ 15 rfl
      (fun h => Option.noConfusion h)).2.2.1 " " (by decide)
  · exact (claim_C5_validator_fail_open jsonParse "qs" "print(1)" _ 15 rfl
      (fun h => Option.noConfusion h)).2.2.2 "not a json verdict" rfl rfl

/-- C6: `generate_code_for_task` fails with a `CodeGenError` condition
(`Except.error`, never a silent pass-through) whenever the generator
returns the empty string or the canonical stub script that
`llm.generate_code` emits when unavailable; the stub substring check
(`"print(json.dumps(['stub']))" in code`) rejects it before any fence
extraction. -/
theorem claim_C6_stub_rejection (gen : String → String)
    (taskInstructions taskContext mode : String) (feedback : Option String)
    (h : gen (buildPrompt taskInstructions taskContext mode feedback) = ""
      ∨ gen (buildPrompt taskInstructions taskContext mode feedback) = stubScript) :
    ∃ e, generate_code_for_task gen taskInstructions taskContext mode feedback
      = Except.error e := by
  rw [generate_code_for_task]
  rcases h with h | h
  · rw [h]
    exact ⟨"Empty code from model", rfl⟩
  · rw [h]
    rw [if_neg (by decide), if_pos (by decide)]
    exact ⟨"Generated stub code instead of real implementation", rfl⟩

/-- C6 witness: an unavailable generator returning the stub script is
rejected with an error. -/
theorem claim_C6_witness :
    ((fun _ : String => stubScript) (buildPrompt "task" "ctx" "code" none) = ""
      ∨ (fun _ : String => stubScript) (buildPrompt "task" "ctx" "code" none) = stubScript)
    ∧ ∃ e, generate_code_for_task (fun _ => stubScript) "task" "ctx" "code" none
        = Except.error e :=
  ⟨Or.inr rfl, claim_C6_stub_rejection (fun _ => stubScript) "task" "ctx" "code" none
    (Or.inr rfl)⟩

theorem eventOk_generate (a : Nat) (g t : Int) (fb : Option String)
    (h5g : 5 ≤ g) (h5t : 5 ≤ t) (hg : 10 < g) :
    eventOk ⟨.generate, a, g, t, min 60 t, fb⟩ := by
  refine ⟨h5g, h5t, fun _ => ⟨hg, rfl⟩, ?_, ?_, ?_, ?_⟩ <;>
    exact fun h => Stage.noConfusion h

theorem eventOk_execute (a : Nat) (g t : Int) (fb : Option String)
    (h5g : 5 ≤ g) (h5t : 5 ≤ t) (hg : 15 < g) :
    eventOk ⟨.execute, a, g, t, min 90 t, fb⟩ := by
  refine ⟨h5g, h5t, ?_, fun _ => ⟨hg, rfl⟩, ?_, ?_, ?_⟩ <;>
    exact fun h => Stage.noConfusion h

theorem eventOk_extractFmt (a : Nat) (g t : Int) (fb : Option String)
    (h5g : 5 ≤ g) (h5t : 5 ≤ t) :
    eventOk ⟨.extractFmt, a, g, t, min 30 t, fb⟩ := by
  refine ⟨h5g, h5t, ?_, ?_, fun _ => rfl, ?_, ?_⟩ <;>
    exact fun h => Stage.noConfusion h

theorem eventOk_validate (a : Nat) (g t : Int) (fb : Option String)
    (h5g : 5 ≤ g) (h5t : 5 ≤ t) (hg : 20 < g) :
    eventOk ⟨.validate, a, g, t, min 15 (t - 5), fb⟩ := by
  refine ⟨h5g, h5t, ?_, ?_, ?_, fun _ => ⟨hg, rfl⟩, ?_⟩ <;>
    exact fun h => Stage.noConfusion h

theorem eventOk_genFeedback (a : Nat) (g t : Int) (fb : Option String)
    (h5g : 5 ≤ g) (h5t : 5 ≤ t) (hg : 30 < g) :
    eventOk ⟨.genFeedback, a, g, t, min 15 (t - 10), fb⟩ := by
  refine ⟨h5g, h5t, ?_, ?_, ?_, ?_, fun _ => ⟨hg, rfl⟩⟩ <;>
    exact fun h => Stage.noConfusion h

theorem remainingFn_ge (d e : Int) : 5 ≤ remainingFn d e := le_max_left 5 _

theorem attemptAfterFb_events (env : PipelineEnv) (d : Int) (m a : Nat)
    (cur : Option String) (g1 : Int) (fb : Option String) (st2 : LoopSt)
    (hg1 : 10 < g1) (h5 : 5 ≤ g1) :
    ∀ e ∈ (attemptAfterFb env d m a cur g1 fb st2).2.trace, e ∈ st2.trace ∨ eventOk e := by
  intro e he
  unfold attemptAfterFb at he
  dsimp only [readClock, addEvent] at he
  split at he
  · -- gen error
    split at he
    · simp only [List.append_eq, List.mem_append, List.mem_singleton] at he
      rcases he with he | he
      · exact Or.inl he
      · subst he
        exact Or.inr (eventOk_generate a g1 _ fb h5 (remainingFn_ge d _) hg1)
    · simp only [List.append_eq, List.mem_append, List.mem_singleton] at he
      rcases he with he | he
      · exact Or.inl he
      · subst he
        exact Or.inr (eventOk_generate a g1 _ fb h5 (remainingFn_ge d _) hg1)
  · -- gen ok
    rename_i code
    split at he
    · -- p5 ≤ 15: preExec
      simp only [List.append_eq, List.mem_append, List.mem_singleton] at he
      rcases he with he | he
      · exact Or.inl he
      · subst he
        exact Or.inr (eventOk_generate a g1 _ fb h5 (remainingFn_ge d _) hg1)
    · rename_i h15
      split at he
      · -- p7 ≤ 20
        split at he <;>
        · simp only [List.append_eq, List.mem_append, List.mem_singleton] at he
          rcases he with (he | he) | he
          · exact Or.inl he
          · subst he
            exact Or.inr (eventOk_generate a g1 _ fb h5 (remainingFn_ge d _) hg1)
          · subst he
            exact Or.inr (eventOk_execute a _ _ none (remainingFn_ge d _)
              (remainingFn_ge d _) (by omega))
      · rename_i h20
        split at he
        · -- last_result.ok: validation block
          split at he
          · -- env.valid raised
            split at he <;>
            · simp only [List.append_eq, List.mem_append, List.mem_singleton] at he
              rcases he with ((he | he) | he) | he
              · exact Or.inl he
              · subst he
                exact Or.inr (eventOk_generate a g1 _ fb h5 (remainingFn_ge d _) hg1)
              · subst he
                exact Or.inr (eventOk_execute a _ _ none (remainingFn_ge d _)
                  (remainingFn_ge d _) (by omega))
              · subst he
                exact Or.inr (eventOk_validate a _ _ none (remainingFn_ge d _)
                  (remainingFn_ge d _) (by omega))
          · -- env.valid returned a verdict: every outcome carries the same trace
            simp only [apply_ite (fun p : AttemptOut × LoopSt => p.2.trace),
              ite_self] at he
            simp only [List.append_eq, List.mem_append, List.mem_singleton] at he
            rcases he with ((he | he) | he) | he
            · exact Or.inl he
            · subst he
              exact Or.inr (eventOk_generate a g1 _ fb h5 (remainingFn_ge d _) hg1)
            · subst he
              exact Or.inr (eventOk_execute a _ _ none (remainingFn_ge d _)
                (remainingFn_ge d _) (by omega))
            · subst he
              exact Or.inr (eventOk_validate a _ _ none (remainingFn_ge d _)
                (remainingFn_ge d _) (by omega))
        · -- execution failed: no validation event
          split at he <;>
          · simp only [List.append_eq, List.mem_append, List.mem_singleton] at he
            rcases he with (he | he) | he
            · exact Or.inl he
            · subst he
              exact Or.inr (eventOk_generate a g1 _ fb h5 (remainingFn_ge d _) hg1)
            · subst he
              exact Or.inr (eventOk_execute a _ _ none (remainingFn_ge d _)
                (remainingFn_ge d _) (by omega))

theorem attemptBody_events (env : PipelineEnv) (d : Int) (m a : Nat)
    (cur : Option String) (st : LoopSt) :
    ∀ e ∈ (attemptBody env d m a cur st).2.trace, e ∈ st.trace ∨ eventOk e := by
  intro e he
  unfold attemptBody at he
  dsimp only [readClock, addEvent] at he
  split at he
  · exact Or.inl he
  · rename_i h10
    split at he
    · -- feedback block
      split at he
      · exact Or.inl he
      · rename_i h30
        rcases attemptAfterFb_events env d m a cur
            (remainingFn d (env.elapsed st.idx)) (some (env.feedback a)) _
            (by omega) (remainingFn_ge d _) e he with hm | hm
        · simp only [List.mem_append, List.mem_singleton] at hm
          rcases hm with hm | hm
          · exact Or.inl hm
          · subst hm
            exact Or.inr (eventOk_genFeedback a _ _ none (remainingFn_ge d _)
              (remainingFn_ge d _) (by omega))
        · exact Or.inr hm
    · rcases attemptAfterFb_events env d m a cur
          (remainingFn d (env.elapsed st.idx)) none _
          (by omega) (remainingFn_ge d _) e he with hm | hm
      · exact Or.inl hm
      · exact Or.inr hm

theorem pipelineLoop_events (env : PipelineEnv) (d : Int) (m : Nat) (fuel : Nat) :
    ∀ a cur st, ∀ e ∈ (pipelineLoop env d m fuel a cur st).2.2.trace,
      e ∈ st.trace ∨ eventOk e := by
  induction fuel with
  | zero => intro a cur st e he; exact Or.inl he
  | succ fuel ih =>
    intro a cur st e he
    unfold pipelineLoop at he
    split at he
    · rename_i res ex st' hstep
      exact attemptBody_events env d m a cur st e (by rw [hstep]; exact he)
    · rename_i cur' st' hstep
      rcases ih (a + 1) cur' st' e he with hm | hm
      · exact attemptBody_events env d m a cur st e (by rw [hstep]; exact hm)
      · exact Or.inr hm

theorem run_pipeline_events (env : PipelineEnv) (d : Int) :
    ∀ e ∈ (run_pipeline env d).2.2, eventOk e := by
  intro e he
  unfold run_pipeline at he
  dsimp only [readClock, addEvent] at he
  rcases pipelineLoop_events env d 3 3 0 none _ e he with hm | hm
  · simp only [List.nil_append, List.mem_singleton] at hm
    subst hm
    exact eventOk_extractFmt 0 _ _ none (remainingFn_ge d _) (remainingFn_ge d _)
  · exact hm

theorem genCount_append (l1 l2 : List Event) :
    genCount (l1 ++ l2) = genCount l1 + genCount l2 :=
  List.countP_append _ _ _

theorem attemptAfterFb_genCount (env : PipelineEnv) (d : Int) (m a : Nat)
    (cur : Option String) (g1 : Int) (fb : Option String) (st2 : LoopSt) :
    genCount (attemptAfterFb env d m a cur g1 fb st2).2.trace ≤ genCount st2.trace + 1 := by
  unfold attemptAfterFb
  dsimp only [readClock, addEvent]
  split
  · split <;>
    · simp only [genCount_append]
      simp [genCount]
  · split
    · simp only [genCount_append]
      simp [genCount]
    · split
      · split <;>
        · simp only [genCount_append]
          simp [genCount]
      · split
        · split
          · split <;>
            · simp only [genCount_append]
              simp [genCount]
          · simp only [apply_ite (fun p : AttemptOut × LoopSt => p.2.trace), ite_self]
            simp only [genCount_append]
            simp [genCount]
        · split <;>
          · simp only [genCount_append]
            simp [genCount]

theorem attemptBody_genCount (env : PipelineEnv) (d : Int) (m a : Nat)
    (cur : Option String) (st : LoopSt) :
    genCount (attemptBody env d m a cur st).2.trace ≤ genCount st.trace + 1 := by
  unfold attemptBody
  dsimp only [readClock, addEvent]
  split
  · exact Nat.le_succ _
  · split
    · split
      · exact Nat.le_succ _
      · have h := attemptAfterFb_genCount env d m a cur
          (remainingFn d (env.elapsed st.idx)) (some (env.feedback a))
          ⟨st.idx + 1 + 1 + 1, st.trace ++
            [⟨Stage.genFeedback, a, remainingFn d (env.elapsed (st.idx + 1)),
              remainingFn d (env.elapsed (st.idx + 1 + 1)),
              min 15 (remainingFn d (env.elapsed (st.idx + 1 + 1)) - 10), none⟩]⟩
        simp only [genCount_append] at h
        have hz : genCount [(⟨Stage.genFeedback, a,
            remainingFn d (env.elapsed (st.idx + 1)),
            remainingFn d (env.elapsed (st.idx + 1 + 1)),
            min 15 (remainingFn d (env.elapsed (st.idx + 1 + 1)) - 10), none⟩ : Event)] = 0 := by
          simp [genCount]
        omega
    · exact attemptAfterFb_genCount env d m a cur
        (remainingFn d (env.elapsed st.idx)) none ⟨st.idx + 1, st.trace⟩

theorem pipelineLoop_genCount (env : PipelineEnv) (d : Int) (m : Nat) (fuel : Nat) :
    ∀ a cur st, genCount (pipelineLoop env d m fuel a cur st).2.2.trace ≤
      genCount st.trace + fuel := by
  induction fuel with
  | zero => intro a cur st; exact Nat.le_refl _
  | succ fuel ih =>
    intro a cur st
    unfold pipelineLoop
    split
    · rename_i res ex st' hstep
      have h := attemptBody_genCount env d m a cur st
      rw [hstep] at h
      dsimp only at h ⊢
      omega
    · rename_i cur' st' hstep
      have h1 := ih (a + 1) cur' st'
      have h2 := attemptBody_genCount env d m a cur st
      rw [hstep] at h2
      dsimp only at h2
      omega

theorem attemptAfterFb_fbEvents (env : PipelineEnv) (d : Int) (m a : Nat)
    (cur : Option String) (g1 : Int) (fb : Option String) (st2 : LoopSt) :
    ∀ e ∈ (attemptAfterFb env d m a cur g1 fb st2).2.trace, e ∉ st2.trace →
      e.stage = Stage.generate → e.fb = fb ∧ e.attempt = a := by
  intro e he hnot hst
  unfold attemptAfterFb at he
  dsimp only [readClock, addEvent] at he
  split at he
  · split at he <;>
    · simp only [List.mem_append, List.mem_singleton] at he
      rcases he with he | he
      · exact absurd he hnot
      · subst he; exact ⟨rfl, rfl⟩
  · split at he
    · simp only [List.mem_append, List.mem_singleton] at he
      rcases he with he | he
      · exact absurd he hnot
      · subst he; exact ⟨rfl, rfl⟩
    · split at he
      · split at he <;>
        · simp only [List.mem_append, List.mem_singleton] at he
          rcases he with (he | he) | he
          · exact absurd he hnot
          · subst he; exact ⟨rfl, rfl⟩
          · subst he; exact absurd hst (fun h => Stage.noConfusion h)
      · split at he
        · split at he
          · split at he <;>
            · simp only [List.mem_append, List.mem_singleton] at he
              rcases he with ((he | he) | he) | he
              · exact absurd he hnot
              · subst he; exact ⟨rfl, rfl⟩
              · subst he; exact absurd hst (fun h => Stage.noConfusion h)
              · subst he; exact absurd hst (fun h => Stage.noConfusion h)
          · simp only [apply_ite (fun p : AttemptOut × LoopSt => p.2.trace),
              ite_self] at he
            simp only [List.mem_append, List.mem_singleton] at he
            rcases he with ((he | he) | he) | he
            · exact absurd he hnot
            · subst he; exact ⟨rfl, rfl⟩
            · subst he; exact absurd hst (fun h => Stage.noConfusion h)
            · subst he; exact absurd hst (fun h => Stage.noConfusion h)
        · split at he <;>
          · simp only [List.mem_append, List.mem_singleton] at he
            rcases he with (he | he) | he
            · exact absurd he hnot
            · subst he; exact ⟨rfl, rfl⟩
            · subst he; exact absurd hst (fun h => Stage.noConfusion h)

theorem attemptAfterFb_retryCode (env : PipelineEnv) (d : Int) (m a : Nat)
    (cur : Option String) (g1 : Int) (fb : Option String) (st2 : LoopSt)
    (c : String) (hc : env.gen a fb = Except.ok c) (hne : c ≠ "") :
    ∀ cur', (attemptAfterFb env d m a cur g1 fb st2).1 = AttemptOut.retry cur' →
      pyTruthyStr cur' = true := by
  intro cur' hr
  unfold attemptAfterFb at hr
  dsimp only [readClock, addEvent] at hr
  rw [hc] at hr
  dsimp only at hr
  split at hr
  · exact absurd hr (fun h => AttemptOut.noConfusion h)
  · split at hr
    · split at hr <;> [exact absurd hr (fun h => AttemptOut.noConfusion h);
        exact absurd hr (fun h => AttemptOut.noConfusion h)]
    · split at hr
      · -- last_result.ok: validation
        split at hr
        · -- env.valid raised
          split at hr
          · exact absurd hr (fun h => AttemptOut.noConfusion h)
          · injection hr with h1
            subst h1
            simp [pyTruthyStr, bne_iff_ne]
            exact hne
        · -- verdict returned: the validLate override, then is_valid
          split at hr
          · rw [if_pos rfl] at hr
            exact absurd hr (fun h => AttemptOut.noConfusion h)
          · split at hr
            · exact absurd hr (fun h => AttemptOut.noConfusion h)
            · split at hr
              · exact absurd hr (fun h => AttemptOut.noConfusion h)
              · injection hr with h1
                subst h1
                simp [pyTruthyStr, bne_iff_ne]
                exact hne
      · -- execution failed
        split at hr
        · exact absurd hr (fun h => AttemptOut.noConfusion h)
        · injection hr with h1
          subst h1
          simp [pyTruthyStr, bne_iff_ne]
          exact hne

theorem attemptBody_fbEvents (env : PipelineEnv) (d : Int) (m a : Nat)
    (cur : Option String) (st : LoopSt)
    (htr : 0 < a → pyTruthyStr cur = true) :
    ∀ e ∈ (attemptBody env d m a cur st).2.trace, e ∉ st.trace →
      e.stage = Stage.generate → 0 < e.attempt →
      e.fb = some (env.feedback e.attempt) := by
  intro e he hnot hst hpos
  unfold attemptBody at he
  dsimp only [readClock, addEvent] at he
  split at he
  · exact absurd he hnot
  · split at he
    · split at he
      · exact absurd he hnot
      · have hfa := attemptAfterFb_fbEvents env d m a cur
          (remainingFn d (env.elapsed st.idx)) (some (env.feedback a)) _ e he
        by_cases hmem : e ∈ st.trace ++ [(⟨Stage.genFeedback, a,
            remainingFn d (env.elapsed (st.idx + 1)),
            remainingFn d (env.elapsed (st.idx + 1 + 1)),
            min 15 (remainingFn d (env.elapsed (st.idx + 1 + 1)) - 10), none⟩ : Event)]
        · simp only [List.mem_append, List.mem_singleton] at hmem
          rcases hmem with hmem | hmem
          · exact absurd hmem hnot
          · subst hmem; exact absurd hst (fun h => Stage.noConfusion h)
        · rcases hfa hmem hst with ⟨h1, h2⟩
          rw [h1, h2]
    · rename_i hcond
      have hfa := attemptAfterFb_fbEvents env d m a cur
        (remainingFn d (env.elapsed st.idx)) none _ e he
      rcases hfa hnot hst with ⟨_, h2⟩
      have ha : a = 0 := by
        by_contra hne0
        exact hcond ⟨Nat.pos_of_ne_zero hne0, htr (Nat.pos_of_ne_zero hne0)⟩
      exfalso
      omega

theorem attemptBody_retryCode (env : PipelineEnv) (d : Int) (m a : Nat)
    (cur : Option String) (st : LoopSt)
    (Hgen : ∀ i f', ∃ c, env.gen i f' = Except.ok c ∧ c ≠ "") :
    ∀ cur', (attemptBody env d m a cur st).1 = AttemptOut.retry cur' →
      pyTruthyStr cur' = true := by
  intro cur' hr
  unfold attemptBody at hr
  dsimp only [readClock, addEvent] at hr
  split at hr
  · exact absurd hr (fun h => AttemptOut.noConfusion h)
  · split at hr
    · split at hr
      · exact absurd hr (fun h => AttemptOut.noConfusion h)
      · obtain ⟨c, hc, hne⟩ := Hgen a (some (env.feedback a))
        exact attemptAfterFb_retryCode env d m a cur _ _ _ c hc hne cur' hr
    · obtain ⟨c, hc, hne⟩ := Hgen a none
      exact attemptAfterFb_retryCode env d m a cur _ _ _ c hc hne cur' hr

theorem pipelineLoop_fbEvents (env : PipelineEnv) (d : Int) (m : Nat)
    (Hgen : ∀ i f', ∃ c, env.gen i f' = Except.ok c ∧ c ≠ "") (fuel : Nat) :
    ∀ a cur st, (0 < a → pyTruthyStr cur = true) →
      ∀ e ∈ (pipelineLoop env d m fuel a cur st).2.2.trace, e ∉ st.trace →
        e.stage = Stage.generate → 0 < e.attempt →
        e.fb = some (env.feedback e.attempt) := by
  induction fuel with
  | zero => intro a cur st htr e he hnot hst hpos; exact absurd he hnot
  | succ fuel ih =>
    intro a cur st htr e he hnot hst hpos
    unfold pipelineLoop at he
    split at he
    · rename_i res ex st' hstep
      exact attemptBody_fbEvents env d m a cur st htr e
        (by rw [hstep]; exact he) hnot hst hpos
    · rename_i cur' st' hstep
      by_cases hmem : e ∈ st'.trace
      · exact attemptBody_fbEvents env d m a cur st htr e
          (by rw [hstep]; exact hmem) hnot hst hpos
      · exact ih (a + 1) cur' st'
          (fun _ => attemptBody_retryCode env d m a cur st Hgen cur' (by rw [hstep]))
          e he hmem hst hpos

theorem run_pipeline_preGen (env : PipelineEnv) (d : Int)
    (h : remainingFn d (env.elapsed 1) ≤ 10) :
    (run_pipeline env d).1 = populate_format_with_timeout_message env.fmt
    ∧ (run_pipeline env d).2.1 = ExitKind.preGenTimeout := by
  unfold run_pipeline pipelineLoop attemptBody
  dsimp only [readClock, addEvent]
  rw [if_pos h]
  exact ⟨rfl, rfl⟩

theorem attemptAfterFb_done_exhausted (env : PipelineEnv) (d : Int) (m a : Nat)
    (cur : Option String) (g1 : Int) (fb : Option String) (st2 : LoopSt)
    (res : JsonVal) (ex : ExitKind)
    (h : (attemptAfterFb env d m a cur g1 fb st2).1 = AttemptOut.done res ex)
    (hx : ex = ExitKind.genFailExhausted ∨ ex = ExitKind.exhausted
      ∨ ex = ExitKind.fallthrough) :
    res = populate_format_with_timeout_message env.fmt := by
  unfold attemptAfterFb at h
  dsimp only [readClock, addEvent] at h
  split at h
  · split at h
    · injection h with h1 h2
      exact h1.symm
    · exact absurd h (fun hc => AttemptOut.noConfusion hc)
  · split at h
    · injection h with h1 h2
      subst h2
      rcases hx with hx | hx | hx <;> exact absurd hx (fun hc => ExitKind.noConfusion hc)
    · split at h
      · split at h <;>
        · injection h with h1 h2
          subst h2
          rcases hx with hx | hx | hx <;> exact absurd hx (fun hc => ExitKind.noConfusion hc)
      · split at h
        · split at h
          · split at h
            · injection h with h1 h2
              exact h1.symm
            · exact absurd h (fun hc => AttemptOut.noConfusion hc)
          · split at h
            · rw [if_pos rfl] at h
              injection h with h1 h2
              subst h2
              rcases hx with hx | hx | hx <;>
                exact absurd hx (fun hc => ExitKind.noConfusion hc)
            · split at h
              · injection h with h1 h2
                subst h2
                rcases hx with hx | hx | hx <;>
                  exact absurd hx (fun hc => ExitKind.noConfusion hc)
              · split at h
                · injection h with h1 h2
                  exact h1.symm
                · exact absurd h (fun hc => AttemptOut.noConfusion hc)
        · split at h
          · injection h with h1 h2
            exact h1.symm
          · exact absurd h (fun hc => AttemptOut.noConfusion hc)

theorem attemptBody_done_exhausted (env : PipelineEnv) (d : Int) (m a : Nat)
    (cur : Option String) (st : LoopSt) (res : JsonVal) (ex : ExitKind)
    (h : (attemptBody env d m a cur st).1 = AttemptOut.done res ex)
    (hx : ex = ExitKind.genFailExhausted ∨ ex = ExitKind.exhausted
      ∨ ex = ExitKind.fallthrough) :
    res = populate_format_with_timeout_message env.fmt := by
  unfold attemptBody at h
  dsimp only [readClock, addEvent] at h
  split at h
  · injection h with h1 h2
    subst h2
    rcases hx with hx | hx | hx <;> exact absurd hx (fun hc => ExitKind.noConfusion hc)
  · split at h
    · split at h
      · injection h with h1 h2
        subst h2
        rcases hx with hx | hx | hx <;> exact absurd hx (fun hc => ExitKind.noConfusion hc)
      · exact attemptAfterFb_done_exhausted env d m a cur _ _ _ res ex h hx
    · exact attemptAfterFb_done_exhausted env d m a cur _ _ _ res ex h hx

theorem pipelineLoop_exhausted (env : PipelineEnv) (d : Int) (m : Nat) (fuel : Nat) :
    ∀ a cur st,
      ((pipelineLoop env d m fuel a cur st).2.1 = ExitKind.genFailExhausted
        ∨ (pipelineLoop env d m fuel a cur st).2.1 = ExitKind.exhausted
        ∨ (pipelineLoop env d m fuel a cur st).2.1 = ExitKind.fallthrough) →
      (pipelineLoop env d m fuel a cur st).1 =
        populate_format_with_timeout_message env.fmt := by
  induction fuel with
  | zero => intro a cur st _; rfl
  | succ fuel ih =>
    intro a cur st hx
    unfold pipelineLoop at hx ⊢
    split at hx
    · rename_i res ex st' hstep
      dsimp only at hx ⊢
      exact attemptBody_done_exhausted env d m a cur st res ex (by rw [hstep]) hx
    · rename_i cur' st' hstep
      exact ih (a + 1) cur' st' hx

theorem attemptAfterFb_done_kinds (env : PipelineEnv) (d : Int) (m a : Nat)
    (cur : Option String) (g1 : Int) (fb : Option String) (st2 : LoopSt)
    (res : JsonVal) (ex : ExitKind)
    (h : (attemptAfterFb env d m a cur g1 fb st2).1 = AttemptOut.done res ex) :
    (ex ≠ ExitKind.preGenTimeout ∧ ex ≠ ExitKind.preFeedbackTimeout)
    ∧ (ex = ExitKind.preExecTimeout →
        res = populate_format_with_timeout_message env.fmt)
    ∧ (ex = ExitKind.preValidReturn →
        res = populate_format_with_timeout_message env.fmt
        ∨ ∃ c r, env.gen a fb = Except.ok c ∧ env.exec a c = Except.ok r
            ∧ r.ok = true ∧ res = resolveDegraded env.fmt r) := by
  unfold attemptAfterFb at h
  dsimp only [readClock, addEvent] at h
  split at h
  · -- generation raised
    split at h
    · injection h with h1 h2
      subst h2
      exact ⟨⟨fun hc => ExitKind.noConfusion hc, fun hc => ExitKind.noConfusion hc⟩,
        fun hx => absurd hx (fun hc => ExitKind.noConfusion hc),
        fun hx => absurd hx (fun hc => ExitKind.noConfusion hc)⟩
    · exact absurd h (fun hc => AttemptOut.noConfusion hc)
  · rename_i cval hgen
    split at h
    · -- remaining <= 15 before execution: fallback return
      injection h with h1 h2
      subst h2
      exact ⟨⟨fun hc => ExitKind.noConfusion hc, fun hc => ExitKind.noConfusion hc⟩,
        fun _ => h1.symm,
        fun hx => absurd hx (fun hc => ExitKind.noConfusion hc)⟩
    · split at h
      · -- remaining <= 20 before validation: degraded early return
        split at h
        · -- last execution succeeded: parsed-output resolution
          rename_i hlok
          injection h with h1 h2
          subst h2
          refine ⟨⟨fun hc => ExitKind.noConfusion hc, fun hc => ExitKind.noConfusion hc⟩,
            fun hx => absurd hx (fun hc => ExitKind.noConfusion hc),
            fun _ => ?_⟩
          cases hexec : env.exec a cval with
          | error e =>
            rw [hexec] at hlok
            dsimp only at hlok
            exact absurd hlok (fun hc => Bool.noConfusion hc)
          | ok r =>
            rw [hexec] at hlok h1
            dsimp only at hlok h1
            exact Or.inr ⟨cval, r, hgen, hexec, hlok, h1.symm⟩
        · -- last execution failed: fallback return
          injection h with h1 h2
          subst h2
          exact ⟨⟨fun hc => ExitKind.noConfusion hc, fun hc => ExitKind.noConfusion hc⟩,
            fun hx => absurd hx (fun hc => ExitKind.noConfusion hc),
            fun _ => Or.inl h1.symm⟩
      · -- validation block
        split at h
        · -- last_result.ok: validate
          split at h
          · -- validator raised
            split at h
            · injection h with h1 h2
              subst h2
              exact ⟨⟨fun hc => ExitKind.noConfusion hc, fun hc => ExitKind.noConfusion hc⟩,
                fun hx => absurd hx (fun hc => ExitKind.noConfusion hc),
                fun hx => absurd hx (fun hc => ExitKind.noConfusion hc)⟩
            · exact absurd h (fun hc => AttemptOut.noConfusion hc)
          · -- verdict returned: validLate override, then is_valid
            split at h
            · rw [if_pos rfl] at h
              injection h with h1 h2
              subst h2
              exact ⟨⟨fun hc => ExitKind.noConfusion hc, fun hc => ExitKind.noConfusion hc⟩,
                fun hx => absurd hx (fun hc => ExitKind.noConfusion hc),
                fun hx => absurd hx (fun hc => ExitKind.noConfusion hc)⟩
            · split at h
              · injection h with h1 h2
                subst h2
                exact ⟨⟨fun hc => ExitKind.noConfusion hc, fun hc => ExitKind.noConfusion hc⟩,
                  fun hx => absurd hx (fun hc => ExitKind.noConfusion hc),
                  fun hx => absurd hx (fun hc => ExitKind.noConfusion hc)⟩
              · split at h
                · injection h with h1 h2
                  subst h2
                  exact ⟨⟨fun hc => ExitKind.noConfusion hc, fun hc => ExitKind.noConfusion hc⟩,
                    fun hx => absurd hx (fun hc => ExitKind.noConfusion hc),
                    fun hx => absurd hx (fun hc => ExitKind.noConfusion hc)⟩
                · exact absurd h (fun hc => AttemptOut.noConfusion hc)
        · -- execution failed: final-attempt check
          split at h
          · injection h with h1 h2
            subst h2
            exact ⟨⟨fun hc => ExitKind.noConfusion hc, fun hc => ExitKind.noConfusion hc⟩,
              fun hx => absurd hx (fun hc => ExitKind.noConfusion hc),
              fun hx => absurd hx (fun hc => ExitKind.noConfusion hc)⟩
          · exact absurd h (fun hc => AttemptOut.noConfusion hc)

theorem attemptBody_done_kinds (env : PipelineEnv) (d : Int) (m a : Nat)
    (cur : Option String) (st : LoopSt) (res : JsonVal) (ex : ExitKind)
    (h : (attemptBody env d m a cur st).1 = AttemptOut.done res ex) :
    (ex = ExitKind.preGenTimeout ∨ ex = ExitKind.preFeedbackTimeout
      ∨ ex = ExitKind.preExecTimeout →
        res = populate_format_with_timeout_message env.fmt)
    ∧ (ex = ExitKind.preValidReturn →
        res = populate_format_with_timeout_message env.fmt
        ∨ ∃ fb c r, env.gen a fb = Except.ok c ∧ env.exec a c = Except.ok r
            ∧ r.ok = true ∧ res = resolveDegraded env.fmt r) := by
  unfold attemptBody at h
  dsimp only [readClock, addEvent] at h
  split at h
  · -- remaining <= 10: fallback return
    injection h with h1 h2
    subst h2
    exact ⟨fun _ => h1.symm,
      fun hx => absurd hx (fun hc => ExitKind.noConfusion hc)⟩
  · split at h
    · split at h
      · -- remaining <= 30 before feedback: fallback return
        injection h with h1 h2
        subst h2
        exact ⟨fun _ => h1.symm,
          fun hx => absurd hx (fun hc => ExitKind.noConfusion hc)⟩
      · have hk := attemptAfterFb_done_kinds env d m a cur _
          (some (env.feedback a)) _ res ex h
        refine ⟨fun hx => ?_, fun hx => ?_⟩
        · rcases hx with hx | hx | hx
          · exact absurd hx hk.1.1
          · exact absurd hx hk.1.2
          · exact hk.2.1 hx
        · rcases hk.2.2 hx with h1 | ⟨c, r, h1, h2, h3, h4⟩
          · exact Or.inl h1
          · exact Or.inr ⟨some (env.feedback a), c, r, h1, h2, h3, h4⟩
    · have hk := attemptAfterFb_done_kinds env d m a cur _ none _ res ex h
      refine ⟨fun hx => ?_, fun hx => ?_⟩
      · rcases hx with hx | hx | hx
        · exact absurd hx hk.1.1
        · exact absurd hx hk.1.2
        · exact hk.2.1 hx
      · rcases hk.2.2 hx with h1 | ⟨c, r, h1, h2, h3, h4⟩
        · exact Or.inl h1
        · exact Or.inr ⟨none, c, r, h1, h2, h3, h4⟩

theorem pipelineLoop_kinds (env : PipelineEnv) (d : Int) (m : Nat) (fuel : Nat) :
    ∀ a cur st,
      ((pipelineLoop env d m fuel a cur st).2.1 = ExitKind.preGenTimeout
        ∨ (pipelineLoop env d m fuel a cur st).2.1 = ExitKind.preFeedbackTimeout
        ∨ (pipelineLoop env d m fuel a cur st).2.1 = ExitKind.preExecTimeout →
        (pipelineLoop env d m fuel a cur st).1 =
          populate_format_with_timeout_message env.fmt)
      ∧ ((pipelineLoop env d m fuel a cur st).2.1 = ExitKind.preValidReturn →
        (pipelineLoop env d m fuel a cur st).1 =
          populate_format_with_timeout_message env.fmt
        ∨ ∃ a' fb c r, env.gen a' fb = Except.ok c ∧ env.exec a' c = Except.ok r
            ∧ r.ok = true
            ∧ (pipelineLoop env d m fuel a cur st).1 = resolveDegraded env.fmt r) := by
  induction fuel with
  | zero =>
    intro a cur st
    exact ⟨fun _ => rfl, fun hx => ExitKind.noConfusion hx⟩
  | succ fuel ih =>
    intro a cur st
    unfold pipelineLoop
    split
    · rename_i res ex st' hstep
      dsimp only
      have hk := attemptBody_done_kinds env d m a cur st res ex (by rw [hstep])
      refine ⟨hk.1, fun hx => ?_⟩
      rcases hk.2 hx with h1 | ⟨fb, c, r, h1, h2, h3, h4⟩
      · exact Or.inl h1
      · exact Or.inr ⟨a, fb, c, r, h1, h2, h3, h4⟩
    · rename_i cur' st' hstep
      exact ih (a + 1) cur' st'

/-- C1: budget guards and early returns of `run_pipeline` (pipeline.py
lines 63-210).  (i) Every dispatched stage event respects the thresholds:
the loop-head check preceding generation exceeded 10, the pre-execution
check exceeded 15, the pre-validation check exceeded 20 and the
pre-feedback check exceeded 30 — so when a check fails the stage is never
dispatched — and the timeouts actually passed are `min(30, remaining())`
for format extraction, `min(60, remaining())` for generation,
`min(90, remaining())` for execution, but `min(15, remaining() - 5)` for
validation and `min(15, remaining() - 10)` for feedback generation.
(ii) With at most 10 s left at the first loop head, the run
short-circuits to the populated fallback.  (iii) The early returns of the
≤10 (line 71), ≤30 (line 87) and ≤15 (line 130) checks deliver the
populated fallback template.  (iv) The early return of the ≤20
pre-validation check (lines 163-176) delivers the populated fallback
only when the last execution failed; when it succeeded it delivers the
degraded resolution of that execution's output (its parsed stdout when
available, otherwise the populated fallback). -/
theorem claim_C1_budget_guards (env : PipelineEnv) (d : Int) :
    (∀ e ∈ (run_pipeline env d).2.2,
        (e.stage = Stage.extractFmt → e.timeout = min 30 e.tR)
      ∧ (e.stage = Stage.generate → 10 < e.guardR ∧ e.timeout = min 60 e.tR)
      ∧ (e.stage = Stage.execute → 15 < e.guardR ∧ e.timeout = min 90 e.tR)
      ∧ (e.stage = Stage.validate → 20 < e.guardR ∧ e.timeout = min 15 (e.tR - 5))
      ∧ (e.stage = Stage.genFeedback → 30 < e.guardR ∧ e.timeout = min 15 (e.tR - 10)))
    ∧ (remainingFn d (env.elapsed 1) ≤ 10 →
        (run_pipeline env d).1 = populate_format_with_timeout_message env.fmt
        ∧ (run_pipeline env d).2.1 = ExitKind.preGenTimeout)
    ∧ ((run_pipeline env d).2.1 = ExitKind.preGenTimeout
        ∨ (run_pipeline env d).2.1 = ExitKind.preFeedbackTimeout
        ∨ (run_pipeline env d).2.1 = ExitKind.preExecTimeout →
        (run_pipeline env d).1 = populate_format_with_timeout_message env.fmt)
    ∧ ((run_pipeline env d).2.1 = ExitKind.preValidReturn →
        (run_pipeline env d).1 = populate_format_with_timeout_message env.fmt
        ∨ ∃ a fb c r, env.gen a fb = Except.ok c ∧ env.exec a c = Except.ok r
            ∧ r.ok = true
            ∧ (run_pipeline env d).1 = resolveDegraded env.fmt r) := by
  refine ⟨?_, run_pipeline_preGen env d, ?_, ?_⟩
  · intro e he
    obtain ⟨h5g, h5t, hgen, hexe, hext, hval, hfbk⟩ := run_pipeline_events env d e he
    exact ⟨hext, hgen, hexe, hval, hfbk⟩
  · exact (pipelineLoop_kinds env d 3 3 0 none _).1
  · exact (pipelineLoop_kinds env d 3 3 0 none _).2

/-- C1 counterexamples to the original claim: first, a run in which the
validator is invoked with timeout `min(15, remaining() - 5) = 5`, not
`min(stage_cap, remaining()) = 10`; second, a run that trips the ≤20
pre-validation check after a successful execution and returns the parsed
sandbox output `[7]`, not the fallback template. -/
theorem claim_C1_cex_validator_timeout :
    (∃ e ∈ (run_pipeline cexEnvC1 100).2.2,
      e.stage = Stage.validate ∧ e.timeout ≠ min 15 e.tR)
    ∧ (run_pipeline cexEnvC1b 100).2.1 = ExitKind.preValidReturn
    ∧ (run_pipeline cexEnvC1b 100).1
        ≠ populate_format_with_timeout_message cexEnvC1b.fmt := by
  exact ⟨by decide, by decide, fun hcon => JsonVal.noConfusion hcon⟩

/-- C1 witness: with at most 10 s left at the first loop head, the run
returns the populated fallback with the pre-generation exit. -/
theorem claim_C1_witness :
    (run_pipeline wEnvC1 100).1 = populate_format_with_timeout_message wEnvC1.fmt
    ∧ (run_pipeline wEnvC1 100).2.1 = ExitKind.preGenTimeout :=
  (claim_C1_budget_guards wEnvC1 100).2.1 (by decide)

/-- C4: a pipeline run issues at most 3 generation attempts (the trace
carries at most 3 generation events), and, whenever the generator always
returns non-empty code, every generation after the first carries the
feedback produced for its attempt. -/
theorem claim_C4_retry_bound (env : PipelineEnv) (d : Int) :
    genCount (run_pipeline env d).2.2 ≤ 3
    ∧ ((∀ i fb, ∃ c, env.gen i fb = Except.ok c ∧ c ≠ "") →
        ∀ e ∈ (run_pipeline env d).2.2, e.stage = Stage.generate → 0 < e.attempt →
          e.fb = some (env.feedback e.attempt)) := by
  constructor
  · unfold run_pipeline
    dsimp only [readClock, addEvent]
    refine le_trans (pipelineLoop_genCount env d 3 3 0 none _) ?_
    simp [genCount]
  · intro Hgen e he hst hpos
    unfold run_pipeline at he
    dsimp only [readClock, addEvent] at he
    refine pipelineLoop_fbEvents env d 3 Hgen 3 0 none _
      (fun hc => absurd hc (Nat.lt_irrefl 0)) e he ?_ hst hpos
    intro hmem
    simp only [List.nil_append, List.mem_singleton] at hmem
    subst hmem
    exact absurd hst (fun hc => Stage.noConfusion hc)

/-- C4 witness: a run that retries to exhaustion still issues at most 3
generation attempts, and every retry generation carries its feedback. -/
theorem claim_C4_witness :
    genCount (run_pipeline wEnvC4 1000).2.2 ≤ 3
    ∧ (∀ e ∈ (run_pipeline wEnvC4 1000).2.2, e.stage = Stage.generate →
        0 < e.attempt → e.fb = some (wEnvC4.feedback e.attempt)) :=
  ⟨(claim_C4_retry_bound wEnvC4 1000).1,
   (claim_C4_retry_bound wEnvC4 1000).2
     (fun _ _ => ⟨"print(1)", rfl, by decide⟩)⟩

/-- C7: when a run ends exhausted (all attempts spent without a valid
result, including the case where every generation failed, and the
unreachable trailing fallback), it returns the populated format-fallback
template, which for a missing template is the structured error object
`create_fallback_format`; the embedding is total, so no exception
propagates. -/
theorem claim_C7_exhausted_fallback (env : PipelineEnv) (d : Int)
    (hex : (run_pipeline env d).2.1 = ExitKind.genFailExhausted
      ∨ (run_pipeline env d).2.1 = ExitKind.exhausted
      ∨ (run_pipeline env d).2.1 = ExitKind.fallthrough) :
    (run_pipeline env d).1 = populate_format_with_timeout_message env.fmt
    ∧ (env.fmt = none → (run_pipeline env d).1 = create_fallback_format) := by
  have h : (run_pipeline env d).1 = populate_format_with_timeout_message env.fmt := by
    unfold run_pipeline at hex ⊢
    dsimp only [readClock, addEvent] at hex ⊢
    exact pipelineLoop_exhausted env d 3 3 0 none _ hex
  refine ⟨h, fun hn => ?_⟩
  rw [h, hn]
  rfl

/-- C7 witness: a run whose validator always rejects exhausts its three
attempts and returns the structured error object. -/
theorem claim_C7_witness :
    (run_pipeline wEnvC7 1000).2.1 = ExitKind.exhausted
    ∧ ((run_pipeline wEnvC7 1000).1 = populate_format_with_timeout_message wEnvC7.fmt
       ∧ (wEnvC7.fmt = none → (run_pipeline wEnvC7 1000).1 = create_fallback_format)) :=
  ⟨by decide,
   claim_C7_exhausted_fallback wEnvC7 1000 (Or.inr (Or.inl (by decide)))⟩

/-- C10: the remaining-budget function is `max(5, deadline - elapsed)`, so
every clock read is at least 5 even past the deadline; every timeout of
the stages computed as `min(cap, remaining())` (format extraction,
generation, execution) is strictly positive; and once the deadline has
elapsed at the first loop head, the pre-generation check fires and the run
returns the fallback response. -/
theorem claim_C10_budget_floor (env : PipelineEnv) (d : Int) :
    (∀ n, 5 ≤ remainingFn d (env.elapsed n))
    ∧ (∀ e ∈ (run_pipeline env d).2.2,
        (e.stage = Stage.extractFmt ∨ e.stage = Stage.generate
          ∨ e.stage = Stage.execute) → 0 < e.timeout)
    ∧ (d ≤ env.elapsed 1 →
        (run_pipeline env d).1 = populate_format_with_timeout_message env.fmt
        ∧ (run_pipeline env d).2.1 = ExitKind.preGenTimeout) := by
  refine ⟨fun n => remainingFn_ge d _, ?_, ?_⟩
  · intro e he hs
    obtain ⟨h5g, h5t, hgen, hexe, hext, hval, hfbk⟩ := run_pipeline_events env d e he
    rcases hs with hs | hs | hs
    · have := hext hs; omega
    · have := (hgen hs).2; omega
    · have := (hexe hs).2; omega
  · intro hd
    refine run_pipeline_preGen env d ?_
    unfold remainingFn
    omega

/-- C10 witness: with the clock past a 100 s deadline, the floor holds and
the run short-circuits to the fallback. -/
theorem claim_C10_witness :
    5 ≤ remainingFn 100 (wEnvC10.elapsed 0)
    ∧ ((run_pipeline wEnvC10 100).1 = populate_format_with_timeout_message wEnvC10.fmt
       ∧ (run_pipeline wEnvC10 100).2.1 = ExitKind.preGenTimeout) :=
  ⟨(claim_C10_budget_floor wEnvC10 100).1 0,
   (claim_C10_budget_floor wEnvC10 100).2.2 (by decide)⟩
